import Mathlib

/-!
Verification of the social-media review synchronization engine
(`social_media/encryption.go`, the `SyncService` in the repository's
sync-service source, `scheduler.go` in package `socialmedia`).

Go byte strings are modelled as `List Nat` whose elements are below 256.
-/

namespace AutoGBP

/-! ## Base64 (Go `encoding/base64`, `StdEncoding`)

`Encrypt` stores `base64.StdEncoding.EncodeToString(ciphertext)` and
`Decrypt` begins with `base64.StdEncoding.DecodeString(ciphertext)`.
The standard alphabet with `=` (byte 61) padding is embedded here.
Go's default (non-`Strict`) decoder does not require the unused trailing
bits of the final symbol to be zero; the embedding reproduces that by
discarding those bits during decoding. -/

namespace B64

/-- Value-to-symbol table of the standard base64 alphabet. -/
def encChar (i : Nat) : Nat :=
  if i < 26 then 65 + i
  else if i < 52 then 97 + (i - 26)
  else if i < 62 then 48 + (i - 52)
  else if i = 62 then 43 else 47

/-- Symbol-to-value table of the standard base64 alphabet; `none` on a
byte outside the alphabet. -/
def decVal (c : Nat) : Option Nat :=
  if 65 ≤ c ∧ c ≤ 90 then some (c - 65)
  else if 97 ≤ c ∧ c ≤ 122 then some (26 + (c - 97))
  else if 48 ≤ c ∧ c ≤ 57 then some (52 + (c - 48))
  else if c = 43 then some 62
  else if c = 47 then some 63
  else none

/-- Base64 encoding of a byte list: groups of three bytes become four
symbols, a trailing group of one or two bytes is padded with `=`. -/
def encB64 : List Nat → List Nat
  | [] => []
  | [a] => [encChar (a / 4), encChar (a % 4 * 16), 61, 61]
  | [a, b] => [encChar (a / 4), encChar (a % 4 * 16 + b / 16), encChar (b % 16 * 4), 61]
  | a :: b :: c :: rest =>
      encChar (a / 4) :: encChar (a % 4 * 16 + b / 16) ::
        encChar (b % 16 * 4 + c / 64) :: encChar (c % 64) :: encB64 rest

/-- Base64 decoding: four symbols at a time, the final quantum may carry
one or two `=` padding symbols; input after padding, a length that is not
a multiple of four, or a symbol outside the alphabet is rejected.
Unused trailing bits of the last data symbol are discarded, as Go's
non-strict decoder does. -/
def decB64 : List Nat → Option (List Nat)
  | [] => some []
  | c1 :: c2 :: c3 :: c4 :: rest =>
    match decVal c1, decVal c2 with
    | some v1, some v2 =>
      if c3 = 61 then
        if c4 = 61 ∧ rest = [] then some [v1 * 4 + v2 / 16] else none
      else
        match decVal c3 with
        | some v3 =>
          if c4 = 61 then
            if rest = [] then some [v1 * 4 + v2 / 16, v2 % 16 * 16 + v3 / 4] else none
          else
            match decVal c4 with
            | some v4 =>
              match decB64 rest with
              | some bs =>
                  some ((v1 * 4 + v2 / 16) :: (v2 % 16 * 16 + v3 / 4) :: (v3 % 4 * 64 + v4) :: bs)
              | none => none
            | none => none
        | none => none
    | _, _ => none
  | _ => none

theorem decVal_encChar {i : Nat} (h : i < 64) : decVal (encChar i) = some i := by
  revert h; revert i; decide

theorem encChar_ne_pad {i : Nat} (h : i < 64) : encChar i ≠ 61 := by
  revert h; revert i; decide

theorem decB64_encB64 : ∀ l : List Nat, (∀ b ∈ l, b < 256) → decB64 (encB64 l) = some l
  | [], _ => rfl
  | [a], h => by
    have ha : a < 256 := h a (by simp)
    have h1 : a / 4 < 64 := by omega
    have h2 : a % 4 * 16 < 64 := by omega
    simp only [encB64, decB64, decVal_encChar h1, decVal_encChar h2, if_true, and_self,
      Option.some.injEq, List.cons.injEq, and_true]
    omega
  | [a, b], h => by
    have ha : a < 256 := h a (by simp)
    have hb : b < 256 := h b (by simp)
    have h1 : a / 4 < 64 := by omega
    have h2 : a % 4 * 16 + b / 16 < 64 := by omega
    have h3 : b % 16 * 4 < 64 := by omega
    simp only [encB64, decB64, decVal_encChar h1, decVal_encChar h2,
      if_neg (encChar_ne_pad h3), decVal_encChar h3, if_true,
      Option.some.injEq, List.cons.injEq, and_true]
    omega
  | a :: b :: c :: rest, h => by
    have ha : a < 256 := h a (by simp)
    have hb : b < 256 := h b (by simp)
    have hc : c < 256 := h c (by simp)
    have h1 : a / 4 < 64 := by omega
    have h2 : a % 4 * 16 + b / 16 < 64 := by omega
    have h3 : b % 16 * 4 + c / 64 < 64 := by omega
    have h4 : c % 64 < 64 := by omega
    have ih : decB64 (encB64 rest) = some rest :=
      decB64_encB64 rest (fun x hx => h x (by simp [hx]))
    simp only [encB64, decB64, decVal_encChar h1, decVal_encChar h2,
      if_neg (encChar_ne_pad h3), decVal_encChar h3, if_neg (encChar_ne_pad h4),
      decVal_encChar h4, ih, Option.some.injEq, List.cons.injEq, and_true]
    omega

end B64

/-! ## Token encryption (`social_media/encryption.go`)

`AESEncryptor.Encrypt` seals the plaintext with AES-256-GCM under a fresh
random nonce, prepends the nonce and base64-encodes the result;
`AESEncryptor.Decrypt` reverses this, failing on bad base64, on input
shorter than the nonce, and on tag mismatch.  The AES-256 block primitive
lives in Go's standard library, outside this repository; it enters the
model as an opaque function parameter `E`, and GCM's counter-mode
keystream and authentication tag are modelled as deterministic functions
of `E`, the nonce and the data, which is the level of detail the spec's
contract (authenticated cipher, fresh nonce prepended, fails closed)
depends on.  The random nonce drawn from `crypto/rand` is a parameter of
`Encrypt`. -/

namespace Crypto

def nonceSize : Nat := 12

def tagSize : Nat := 16

/-- Output of the block primitive normalized to exactly 16 bytes below 256. -/
def blockOf (E : List Nat → List Nat) (inp : List Nat) : List Nat :=
  ((E inp).map (fun b => b % 256) ++ List.replicate 16 0).take 16

/-- Counter block: nonce followed by a 32-bit big-endian counter. -/
def counterBlock (nonce : List Nat) (i : Nat) : List Nat :=
  nonce ++ [i / 16777216 % 256, i / 65536 % 256, i / 256 % 256, i % 256]

/-- Concatenation of `k` consecutive counter-mode blocks. -/
def ksAux (E : List Nat → List Nat) (nonce : List Nat) (ctr : Nat) : Nat → List Nat
  | 0 => []
  | k + 1 => blockOf E (counterBlock nonce ctr) ++ ksAux E nonce (ctr + 1) k

/-- CTR keystream of `n` bytes; payload counters start at 2 as in GCM. -/
def keystream (E : List Nat → List Nat) (nonce : List Nat) (n : Nat) : List Nat :=
  (ksAux E nonce 2 (n / 16 + 1)).take n

def xorBytes (p ks : List Nat) : List Nat := List.zipWith (fun a b => a ^^^ b) p ks

/-- Authentication tag: 16 bytes computed deterministically from the nonce
and the ciphertext through the block primitive. -/
def gtag (E : List Nat → List Nat) (nonce ct : List Nat) : List Nat :=
  blockOf E (nonce ++ ct ++ [ct.length % 256])

/-- Model of `gcm.Seal(nonce, nonce, plaintext, nil)` without the nonce prefix:
counter-mode encryption followed by the authentication tag. -/
def gcmSeal (E : List Nat → List Nat) (nonce p : List Nat) : List Nat :=
  let ct := xorBytes p (keystream E nonce p.length)
  ct ++ gtag E nonce ct

/-- Model of `gcm.Open(nil, nonce, data, nil)`: `none` when the input cannot
carry a tag or the recomputed tag differs from the stored one. -/
def gcmOpen (E : List Nat → List Nat) (nonce data : List Nat) : Option (List Nat) :=
  if data.length < tagSize then none
  else
    let ct := data.take (data.length - tagSize)
    let tag := data.drop (data.length - tagSize)
    if tag = gtag E nonce ct then some (xorBytes ct (keystream E nonce ct.length))
    else none

/-- Embedding of `AESEncryptor.Encrypt`; `nonce` stands for the bytes drawn
from `crypto/rand`. -/
def Encrypt (E : List Nat → List Nat) (nonce p : List Nat) :
    Except String (List Nat) :=
  if p = [] then .ok []
  else .ok (B64.encB64 (nonce ++ gcmSeal E nonce p))

/-- Embedding of `AESEncryptor.Decrypt`. -/
def Decrypt (E : List Nat → List Nat) (c : List Nat) : Except String (List Nat) :=
  if c = [] then .ok []
  else
    match B64.decB64 c with
    | none => .error "illegal base64 data"
    | some data =>
      if data.length < nonceSize then .error "ciphertext too short"
      else
        match gcmOpen E (data.take nonceSize) (data.drop nonceSize) with
        | none => .error "cipher: message authentication failed"
        | some p => .ok p

theorem length_blockOf (E : List Nat → List Nat) (inp : List Nat) :
    (blockOf E inp).length = 16 := by
  simp [blockOf]

theorem blockOf_lt (E : List Nat → List Nat) (inp : List Nat) :
    ∀ b ∈ blockOf E inp, b < 256 := by
  intro b hb
  have hb₂ := List.mem_of_mem_take hb
  rcases List.mem_append.mp hb₂ with h | h
  · obtain ⟨x, -, hx⟩ := List.mem_map.mp h
    omega
  · have := List.eq_of_mem_replicate h
    omega

theorem length_ksAux (E : List Nat → List Nat) (nonce : List Nat) :
    ∀ ctr k, (ksAux E nonce ctr k).length = 16 * k := by
  intro ctr k
  induction k generalizing ctr with
  | zero => rfl
  | succ k ih => simp [ksAux, ih, length_blockOf]; ring

theorem ksAux_lt (E : List Nat → List Nat) (nonce : List Nat) :
    ∀ ctr k, ∀ b ∈ ksAux E nonce ctr k, b < 256 := by
  intro ctr k
  induction k generalizing ctr with
  | zero => intro b hb; simp [ksAux] at hb
  | succ k ih =>
    intro b hb
    rcases List.mem_append.mp hb with h | h
    · exact blockOf_lt E _ b h
    · exact ih (ctr + 1) b h

theorem length_keystream (E : List Nat → List Nat) (nonce : List Nat) (n : Nat) :
    (keystream E nonce n).length = n := by
  simp only [keystream, List.length_take, length_ksAux]
  omega

theorem keystream_lt (E : List Nat → List Nat) (nonce : List Nat) (n : Nat) :
    ∀ b ∈ keystream E nonce n, b < 256 := by
  intro b hb
  exact ksAux_lt E nonce 2 (n / 16 + 1) b (List.mem_of_mem_take hb)

theorem length_xorBytes (p ks : List Nat) :
    (xorBytes p ks).length = min p.length ks.length := by
  simp [xorBytes]

theorem xorBytes_lt : ∀ (p ks : List Nat), (∀ b ∈ p, b < 256) →
    (∀ b ∈ ks, b < 256) → ∀ b ∈ xorBytes p ks, b < 256
  | [], _, _, _ => by intro b hb; simp [xorBytes] at hb
  | _ :: _, [], _, _ => by intro b hb; simp [xorBytes] at hb
  | a :: p, k :: ks, hp, hks => by
    intro b hb
    simp only [xorBytes, List.zipWith_cons_cons, List.mem_cons] at hb
    rcases hb with rfl | hb
    · have hx : a < 2 ^ 8 := hp a (.head _)
      have hy : k < 2 ^ 8 := hks k (.head _)
      have := Nat.xor_lt_two_pow hx hy
      omega
    · exact xorBytes_lt p ks (fun x hx => hp x (.tail _ hx))
        (fun x hx => hks x (.tail _ hx)) b hb

theorem xorBytes_xorBytes : ∀ (p ks : List Nat), p.length ≤ ks.length →
    xorBytes (xorBytes p ks) ks = p
  | [], _, _ => rfl
  | _ :: _, [], h => by simp at h
  | a :: p, k :: ks, h => by
    simp only [xorBytes, List.zipWith_cons_cons] at *
    rw [Nat.xor_cancel_right]
    have := xorBytes_xorBytes p ks (by simpa using h)
    simp only [xorBytes] at this
    rw [this]

theorem length_gtag (E : List Nat → List Nat) (nonce ct : List Nat) :
    (gtag E nonce ct).length = 16 := length_blockOf E _

theorem gcmOpen_gcmSeal (E : List Nat → List Nat) (nonce p : List Nat) :
    gcmOpen E nonce (gcmSeal E nonce p) = some p := by
  have hks : (keystream E nonce p.length).length = p.length :=
    length_keystream E nonce p.length
  have hct : (xorBytes p (keystream E nonce p.length)).length = p.length := by
    rw [length_xorBytes, hks]; omega
  simp only [gcmSeal, gcmOpen]
  rw [List.length_append, length_gtag, hct]
  rw [if_neg (by simp [tagSize])]
  have hsub : p.length + 16 - tagSize = p.length := by simp [tagSize]
  rw [hsub, List.take_left' hct, List.drop_left' hct]
  rw [if_pos rfl, hct]
  congr 1
  exact xorBytes_xorBytes p (keystream E nonce p.length) (by omega)

theorem encB64_ne_nil : ∀ l : List Nat, l ≠ [] → B64.encB64 l ≠ []
  | [], h => absurd rfl h
  | [_], _ => by simp [B64.encB64]
  | [_, _], _ => by simp [B64.encB64]
  | _ :: _ :: _ :: _, _ => by simp [B64.encB64]

theorem gtag_lt (E : List Nat → List Nat) (nonce ct : List Nat) :
    ∀ b ∈ gtag E nonce ct, b < 256 := blockOf_lt E _

theorem gcmSeal_lt (E : List Nat → List Nat) (nonce p : List Nat)
    (hpb : ∀ b ∈ p, b < 256) : ∀ b ∈ gcmSeal E nonce p, b < 256 := by
  intro b hb
  simp only [gcmSeal] at hb
  rcases List.mem_append.mp hb with h | h
  · exact xorBytes_lt p _ hpb (keystream_lt E nonce p.length) b h
  · exact gtag_lt E nonce _ b h

/-- Whenever `gcmOpen` accepts, the opened data was exactly the canonical
sealing of the returned plaintext under the same nonce. -/
theorem gcmSeal_of_gcmOpen (E : List Nat → List Nat) (nonce rest p : List Nat)
    (h : gcmOpen E nonce rest = some p) : rest = gcmSeal E nonce p := by
  unfold gcmOpen at h
  by_cases hlen : rest.length < tagSize
  · rw [if_pos hlen] at h; exact absurd h (by simp)
  · rw [if_neg hlen] at h
    by_cases htag : rest.drop (rest.length - tagSize) =
        gtag E nonce (rest.take (rest.length - tagSize))
    · rw [if_pos htag] at h
      have hp : p = xorBytes (rest.take (rest.length - tagSize))
          (keystream E nonce (rest.take (rest.length - tagSize)).length) :=
        (Option.some.inj h).symm
      have hkslen := length_keystream E nonce (rest.take (rest.length - tagSize)).length
      have hplen : p.length = (rest.take (rest.length - tagSize)).length := by
        rw [hp, length_xorBytes, hkslen]; omega
      have hxor : xorBytes p (keystream E nonce p.length) =
          rest.take (rest.length - tagSize) := by
        rw [hplen, hp]
        exact xorBytes_xorBytes _ _ hkslen.ge
      simp only [gcmSeal, hxor, ← htag]
      exact (List.take_append_drop _ rest).symm
    · rw [if_neg htag] at h; exact absurd h (by simp)

/-- C4: for the AESEncryptor over any block primitive (any 32-byte key) and
any 12-byte nonce drawn by the call, `Decrypt` inverts `Encrypt` on every
non-empty plaintext without error, and the empty string short-circuits
through both directions. -/
theorem encrypt_decrypt_roundtrip (E : List Nat → List Nat) (nonce p : List Nat)
    (hn : nonce.length = nonceSize) (hnb : ∀ b ∈ nonce, b < 256)
    (hpb : ∀ b ∈ p, b < 256) :
    (p ≠ [] → ∃ c, Encrypt E nonce p = .ok c ∧ Decrypt E c = .ok p)
    ∧ Encrypt E nonce [] = .ok [] ∧ Decrypt E [] = .ok [] := by
  refine ⟨?_, rfl, rfl⟩
  intro hp
  refine ⟨B64.encB64 (nonce ++ gcmSeal E nonce p), by simp [Encrypt, hp], ?_⟩
  have hnn : nonce ++ gcmSeal E nonce p ≠ [] := by
    intro hcontra
    have := congrArg List.length hcontra
    simp [hn, nonceSize] at this
  have hcne : B64.encB64 (nonce ++ gcmSeal E nonce p) ≠ [] := encB64_ne_nil _ hnn
  have hbytes : ∀ b ∈ nonce ++ gcmSeal E nonce p, b < 256 := by
    intro b hb
    rcases List.mem_append.mp hb with h | h
    · exact hnb b h
    · exact gcmSeal_lt E nonce p hpb b h
  have hdec := B64.decB64_encB64 _ hbytes
  simp only [Decrypt, if_neg hcne, hdec]
  have hlen : ¬ (nonce ++ gcmSeal E nonce p).length < nonceSize := by
    simp [List.length_append, hn]
  rw [if_neg hlen, List.take_left' hn, List.drop_left' hn, gcmOpen_gcmSeal]

/-- Constant block function used to instantiate the abstract AES-256
primitive in concrete evaluations. -/
def zeroBlock : List Nat → List Nat := fun _ => List.replicate 16 0

/-- Witness for C4 at a concrete block function, nonce and plaintext. -/
theorem encrypt_decrypt_roundtrip_witness :
    (([72, 105] : List Nat) ≠ [] →
      ∃ c, Encrypt zeroBlock (List.replicate 12 0) [72, 105] = .ok c ∧
        Decrypt zeroBlock c = .ok [72, 105])
    ∧ Encrypt zeroBlock (List.replicate 12 0) [] = .ok []
    ∧ Decrypt zeroBlock [] = .ok [] :=
  encrypt_decrypt_roundtrip zeroBlock (List.replicate 12 0) [72, 105]
    (by decide) (by decide) (by decide)

/-- C6 (amended): `Decrypt` fails closed structurally.  Any base64 payload
whose decoded bytes are shorter than the nonce size yields the
"ciphertext too short" error, and whenever `Decrypt` returns a non-empty
plaintext without error, the decoded input is exactly the nonce-prefixed
canonical sealing of that plaintext — never an incorrect plaintext.
Rejection of every single-byte mutation is not guaranteed: a mutation in
the unused trailing bits of the final base64 symbol decodes to the same
bytes and is accepted, returning the original plaintext. -/
theorem decrypt_fails_closed (E : List Nat → List Nat) (c : List Nat) :
    (∀ data, B64.decB64 c = some data → data.length < nonceSize → c ≠ [] →
      Decrypt E c = .error "ciphertext too short")
    ∧ (∀ p, Decrypt E c = .ok p → p ≠ [] →
      ∃ data, B64.decB64 c = some data ∧ nonceSize ≤ data.length ∧
        data.drop nonceSize = gcmSeal E (data.take nonceSize) p) := by
  constructor
  · intro data hdec hshort hcne
    simp only [Decrypt, if_neg hcne, hdec]
    rw [if_pos hshort]
  · intro p hok hp
    by_cases hcne : c = []
    · subst hcne
      have hep : ([] : List Nat) = p := by simpa [Decrypt] using hok
      exact absurd hep.symm hp
    · cases hdec : B64.decB64 c with
      | none => simp [Decrypt, if_neg hcne, hdec] at hok
      | some data =>
        simp only [Decrypt, if_neg hcne, hdec] at hok
        by_cases hshort : data.length < nonceSize
        · rw [if_pos hshort] at hok; exact absurd hok (by simp)
        · rw [if_neg hshort] at hok
          cases hopen : gcmOpen E (data.take nonceSize) (data.drop nonceSize) with
          | none => simp [hopen] at hok
          | some q =>
            simp only [hopen] at hok
            have hqp : q = p := Except.ok.inj hok
            refine ⟨data, rfl, by omega, ?_⟩
            rw [← hqp]
            exact gcmSeal_of_gcmOpen E _ _ q hopen

/-- Concrete valid ciphertext: `Encrypt zeroBlock (replicate 12 0) [65]`. -/
def cexCipher : List Nat :=
  [65, 65, 65, 65, 65, 65, 65, 65, 65, 65, 65, 65, 65, 65, 65, 65, 81, 81, 65, 65,
   65, 65, 65, 65, 65, 65, 65, 65, 65, 65, 65, 65, 65, 65, 65, 65, 65, 65, 65, 61]

/-- Single-byte mutation of `cexCipher`: symbol 38 changed from `A` (65)
to `B` (66), which only alters the two unused trailing bits of the final
base64 quantum. -/
def cexMutated : List Nat :=
  [65, 65, 65, 65, 65, 65, 65, 65, 65, 65, 65, 65, 65, 65, 65, 65, 81, 81, 65, 65,
   65, 65, 65, 65, 65, 65, 65, 65, 65, 65, 65, 65, 65, 65, 65, 65, 65, 65, 66, 61]

/-- C6 counterexample: `cexCipher` is a valid ciphertext produced by
`Encrypt`, `cexMutated` differs from it in exactly one byte, yet `Decrypt`
accepts the mutation without error (returning the original plaintext),
because Go's non-strict base64 decoder ignores the unused trailing bits of
the final symbol.  This refutes "any single-byte mutation of a valid
ciphertext makes Decrypt return an error" for every block primitive, since
the mutation leaves the decoded bytes unchanged. -/
theorem decrypt_tamper_counterexample :
    Encrypt zeroBlock (List.replicate 12 0) [65] = .ok cexCipher
    ∧ cexMutated.length = cexCipher.length
    ∧ (List.zip cexCipher cexMutated).countP (fun q => q.1 != q.2) = 1
    ∧ Decrypt zeroBlock cexMutated = .ok [65] :=
  ⟨rfl, rfl, rfl, rfl⟩

/-- Witness for the amended C6 theorem: the truncation branch at the
four-symbol payload decoding to two bytes, and the fails-closed branch at
the concrete valid ciphertext. -/
theorem decrypt_fails_closed_witness :
    Decrypt zeroBlock [65, 65, 65, 61] = .error "ciphertext too short"
    ∧ ∃ data, B64.decB64 cexCipher = some data ∧ nonceSize ≤ data.length ∧
        data.drop nonceSize = gcmSeal zeroBlock (data.take nonceSize) [65] :=
  ⟨(decrypt_fails_closed zeroBlock [65, 65, 65, 61]).1 [0, 0] rfl (by decide) (by decide),
   (decrypt_fails_closed zeroBlock cexCipher).2 [65] rfl (by decide)⟩

end Crypto

/-! ## Data model and sync service (package `socialmedia`)

Timestamps (`time.Time`) are modelled as `Nat`; each `time.Now()` call
reads a logical clock in the state and advances it.  Go error values are
modelled by their message strings, `*float64` ratings by `Option Rat`
(never computed on, only carried), and `map[string]interface{}` metadata
by an association list (likewise only carried).

The `SocialMediaDB` gateway interface is implemented by `DB` in
`main.go`; each operation is modelled as the in-memory effect of its SQL
statement there (in particular, `UpdateSyncedReview` writes only the
columns of its `SET` clause), guarded by a per-operation error oracle in
`Env` standing for database failure, with the
`UNIQUE(platform, platform_review_id)` constraint of the migration schema
enforced on insert.  Every gateway and provider call appends an `Event`
to the state's trace, which is how call ordering is observed. -/

namespace Sync

structure APIConnection where
  ID : Nat
  MerchantID : Nat
  Platform : String
  PlatformAccountID : String
  PlatformAccountName : String
  AccessToken : String
  RefreshToken : String
  TokenExpiresAt : Nat
  IsActive : Bool
  LastSyncAt : Option Nat
  SyncStatus : String
  ErrorMessage : String
  CreatedAt : Nat
  UpdatedAt : Nat
deriving DecidableEq, Repr

structure SyncedReview where
  ID : Nat
  MerchantID : Nat
  APIConnectionID : Option Nat
  Platform : String
  PlatformReviewID : String
  AuthorName : String
  AuthorPhotoURL : String
  Rating : Option Rat
  ReviewText : String
  ReviewReply : String
  ReviewedAt : Nat
  SyncedAt : Nat
  IsVisible : Bool
  Metadata : List (String × String)
deriving DecidableEq, Repr

structure SyncLog where
  ID : Nat
  APIConnectionID : Nat
  SyncType : String
  Status : String
  ReviewsFetched : Nat
  ReviewsAdded : Nat
  ReviewsUpdated : Nat
  ErrorMessage : String
  StartedAt : Nat
  CompletedAt : Option Nat
deriving DecidableEq, Repr

structure TokenResponse where
  AccessToken : String
  RefreshToken : String
  ExpiresIn : Nat
  TokenType : String
  ExpiresAt : Nat
deriving DecidableEq, Repr

structure Review where
  PlatformReviewID : String
  AuthorName : String
  AuthorPhotoURL : String
  Rating : Option Rat
  ReviewText : String
  ReviewReply : String
  ReviewedAt : Nat
  Metadata : List (String × String)
deriving DecidableEq, Repr

structure SyncStats where
  TotalFetched : Nat
  TotalAdded : Nat
  TotalUpdated : Nat
  Errors : List String
deriving DecidableEq, Repr

def SyncStatusPending : String := "pending"

def SyncStatusSyncing : String := "syncing"

def SyncStatusCompleted : String := "completed"

def SyncStatusFailed : String := "failed"

def SyncTypeManual : String := "manual"

def SyncTypeScheduled : String := "scheduled"

/-- Observable calls to the persistence gateway and the provider. -/
inductive Event where
  | getConn (id : Nat)
  | createSyncLog (log : SyncLog)
  | updateConn (conn : APIConnection)
  | getReview (platform : String) (platformReviewID : String)
  | createReview (r : SyncedReview)
  | updateReview (r : SyncedReview)
  | updateSyncLog (log : SyncLog)
  | validateToken (token : String)
  | refreshToken (token : String)
  | fetchReviews (token : String) (since : Nat) (fetched : Option Nat)
deriving DecidableEq, Repr

/-- Persistence-write events, as opposed to reads and provider calls. -/
def Event.isWrite : Event → Bool
  | .createSyncLog _ | .updateConn _ | .createReview _ | .updateReview _
  | .updateSyncLog _ => true
  | _ => false

/-- Events emitted by the per-review reconciliation loop body. -/
def Event.isReviewOp : Event → Bool
  | .getReview _ _ | .createReview _ | .updateReview _ => true
  | _ => false

/-- State of the persistence layer plus the logical clock and call trace. -/
structure DBState where
  connections : List APIConnection
  reviews : List SyncedReview
  logs : List SyncLog
  nextReviewID : Nat
  nextLogID : Nat
  clock : Nat
  trace : List Event
deriving Repr

/-- The provider methods `SyncConnection` uses.  `ValidateToken` returns
Go's `(bool, error)` pair. -/
structure Provider where
  ValidateToken : String → Bool × Option String
  RefreshToken : String → Except String TokenResponse
  FetchReviews : String → Nat → Except String (List Review)

/-- Environment of one sync: the provider registry, the `TokenEncryptor`,
and one error oracle per gateway operation (a `some` answer makes that
call fail with the given message). -/
structure Env where
  providers : String → Option Provider
  decrypt : String → Except String String
  encrypt : String → Except String String
  getConnErr : Nat → Option String
  createSyncLogErr : SyncLog → Option String
  updateConnErr : APIConnection → Option String
  getReviewErr : String → String → Option String
  createReviewErr : SyncedReview → Option String
  updateReviewErr : SyncedReview → Option String
  updateSyncLogErr : SyncLog → Option String

def findConn (l : List APIConnection) (id : Nat) : Option APIConnection :=
  l.find? (fun c => c.ID == id)

def findReview (l : List SyncedReview) (platform prid : String) : Option SyncedReview :=
  l.find? (fun r => r.Platform == platform && r.PlatformReviewID == prid)

def GetAPIConnection (env : Env) (st : DBState) (id : Nat) :
    Except String APIConnection × DBState :=
  let st := { st with trace := st.trace ++ [.getConn id] }
  match env.getConnErr id with
  | some e => (.error e, st)
  | none =>
    match findConn st.connections id with
    | some c => (.ok c, st)
    | none => (.error "connection not found", st)

/-- Insert a sync log; the row receives the next fresh ID, which the
returned value carries back to the caller. -/
def CreateSyncLog (env : Env) (st : DBState) (log : SyncLog) :
    Except String SyncLog × DBState :=
  let st := { st with trace := st.trace ++ [.createSyncLog log] }
  match env.createSyncLogErr log with
  | some e => (.error e, st)
  | none =>
    let log := { log with ID := st.nextLogID }
    (.ok log, { st with logs := st.logs ++ [log], nextLogID := st.nextLogID + 1 })

def UpdateAPIConnection (env : Env) (st : DBState) (conn : APIConnection) :
    Option String × DBState :=
  let st := { st with trace := st.trace ++ [.updateConn conn] }
  match env.updateConnErr conn with
  | some e => (some e, st)
  | none =>
    (none, { st with connections :=
      st.connections.map (fun c => if c.ID == conn.ID then conn else c) })

def GetSyncedReviewByPlatformID (env : Env) (st : DBState) (platform prid : String) :
    Except String (Option SyncedReview) × DBState :=
  let st := { st with trace := st.trace ++ [.getReview platform prid] }
  match env.getReviewErr platform prid with
  | some e => (.error e, st)
  | none => (.ok (findReview st.reviews platform prid), st)

/-- Insert a review row with a fresh ID; the schema's
`UNIQUE(platform, platform_review_id)` constraint rejects a duplicate key. -/
def CreateSyncedReview (env : Env) (st : DBState) (r : SyncedReview) :
    Option String × DBState :=
  let st := { st with trace := st.trace ++ [.createReview r] }
  match env.createReviewErr r with
  | some e => (some e, st)
  | none =>
    match findReview st.reviews r.Platform r.PlatformReviewID with
    | some _ => (some "duplicate key value violates unique constraint", st)
    | none =>
      (none, { st with reviews := st.reviews ++ [{ r with ID := st.nextReviewID }],
                       nextReviewID := st.nextReviewID + 1 })

/-- The stored row after `UpdateSyncedReview`'s SQL: the `SET` clause
writes only `author_name`, `author_photo_url`, `rating`, `review_text`,
`review_reply`, `is_visible` and `metadata` from the argument; `id`,
`merchant_id`, `api_connection_id`, `platform`, `platform_review_id`,
`reviewed_at` and `synced_at` keep their stored values. -/
def applyReviewUpdate (x r : SyncedReview) : SyncedReview :=
  { x with AuthorName := r.AuthorName, AuthorPhotoURL := r.AuthorPhotoURL,
           Rating := r.Rating, ReviewText := r.ReviewText,
           ReviewReply := r.ReviewReply, IsVisible := r.IsVisible,
           Metadata := r.Metadata }

/-- `UPDATE synced_reviews SET ... WHERE id = r.ID`: only the `SET`
columns of the matching row change. -/
def UpdateSyncedReview (env : Env) (st : DBState) (r : SyncedReview) :
    Option String × DBState :=
  let st := { st with trace := st.trace ++ [.updateReview r] }
  match env.updateReviewErr r with
  | some e => (some e, st)
  | none =>
    (none, { st with reviews := st.reviews.map (fun x =>
      if x.ID == r.ID then applyReviewUpdate x r else x) })

def UpdateSyncLog (env : Env) (st : DBState) (log : SyncLog) :
    Option String × DBState :=
  let st := { st with trace := st.trace ++ [.updateSyncLog log] }
  match env.updateSyncLogErr log with
  | some e => (some e, st)
  | none =>
    (none, { st with logs := st.logs.map (fun x => if x.ID == log.ID then log else x) })

/-- The connection record as `handleSyncError` rewrites it. -/
def failedConn (conn : APIConnection) (err : String) : APIConnection :=
  { conn with SyncStatus := SyncStatusFailed, ErrorMessage := err }

/-- The log record as `handleSyncError` closes it. -/
def failedLog (log : SyncLog) (err : String) (now : Nat) : SyncLog :=
  { log with Status := "failed", ErrorMessage := err, CompletedAt := some now }

/-- Embedding of `handleSyncError`: mark the connection failed with the
error text and close the log as failed, ignoring both write errors. -/
def handleSyncError (env : Env) (st : DBState) (conn : APIConnection)
    (log : SyncLog) (err : String) : DBState :=
  let (_, st) := UpdateAPIConnection env st (failedConn conn err)
  let now := st.clock
  let st := { st with clock := st.clock + 1 }
  let (_, st) := UpdateSyncLog env st (failedLog log err now)
  st

/-- The `SyncedReview` value built from the connection and a fetched review
inside the reconciliation loop. -/
def mkSyncedReview (conn : APIConnection) (review : Review) : SyncedReview :=
  { ID := 0
    MerchantID := conn.MerchantID
    APIConnectionID := some conn.ID
    Platform := conn.Platform
    PlatformReviewID := review.PlatformReviewID
    AuthorName := review.AuthorName
    AuthorPhotoURL := review.AuthorPhotoURL
    Rating := review.Rating
    ReviewText := review.ReviewText
    ReviewReply := review.ReviewReply
    ReviewedAt := review.ReviewedAt
    SyncedAt := 0
    IsVisible := true
    Metadata := review.Metadata }

/-- Body of the `for _, review := range reviews` reconciliation loop:
look the review up by `(platform, platform_review_id)`; on a hit update
in place under the existing ID, otherwise insert; a per-item persistence
error is appended to the stats without aborting. -/
def processReview (env : Env) (conn : APIConnection)
    (acc : SyncStats × DBState) (review : Review) : SyncStats × DBState :=
  let (stats, st) := acc
  let (existingRes, st) :=
    GetSyncedReviewByPlatformID env st conn.Platform review.PlatformReviewID
  let syncedReview := mkSyncedReview conn review
  match existingRes with
  | .ok (some existing) =>
    let syncedReview := { syncedReview with ID := existing.ID }
    match UpdateSyncedReview env st syncedReview with
    | (some e, st) => ({ stats with Errors := stats.Errors ++ [e] }, st)
    | (none, st) => ({ stats with TotalUpdated := stats.TotalUpdated + 1 }, st)
  | _ =>
    match CreateSyncedReview env st syncedReview with
    | (some e, st) => ({ stats with Errors := stats.Errors ++ [e] }, st)
    | (none, st) => ({ stats with TotalAdded := stats.TotalAdded + 1 }, st)

/-- Fetch horizon: the zero time on a first sync, otherwise the stored
`last_sync_at`. -/
def sinceOf (conn : APIConnection) : Nat :=
  match conn.LastSyncAt with | some t => t | none => 0

/-- The connection record as the success path rewrites it: `last_sync_at`
set to now, status completed, error message cleared. -/
def completedConn (conn : APIConnection) (now : Nat) : APIConnection :=
  { conn with LastSyncAt := some now, SyncStatus := SyncStatusCompleted,
              ErrorMessage := "" }

/-- The log record as the success path closes it: completed with the final
counts and a completion time. -/
def completedLog (log : SyncLog) (stats : SyncStats) (now : Nat) : SyncLog :=
  { log with Status := "completed", ReviewsFetched := stats.TotalFetched,
             ReviewsAdded := stats.TotalAdded, ReviewsUpdated := stats.TotalUpdated,
             CompletedAt := some now }

/-- Tail of `SyncConnection` from the `FetchReviews` call on: fetch since
the last sync, reconcile each review, then mark the connection completed
and close the log with the final counts. -/
def fetchAndReconcile (env : Env) (st : DBState) (conn : APIConnection)
    (log : SyncLog) (provider : Provider) (accessToken : String) :
    (Option SyncStats × Option String) × DBState :=
  let since := sinceOf conn
  match provider.FetchReviews accessToken since with
  | .error e =>
    let st := { st with trace := st.trace ++ [.fetchReviews accessToken since none] }
    ((none, some e), handleSyncError env st conn log e)
  | .ok reviews =>
    let st := { st with trace :=
      st.trace ++ [.fetchReviews accessToken since (some reviews.length)] }
    let stats : SyncStats :=
      { TotalFetched := reviews.length, TotalAdded := 0, TotalUpdated := 0, Errors := [] }
    let (stats, st) := reviews.foldl (processReview env conn) (stats, st)
    let now := st.clock
    let st := { st with clock := st.clock + 1 }
    match UpdateAPIConnection env st (completedConn conn now) with
    | (some e, st) => ((some stats, some e), st)
    | (none, st) =>
      let (_, st) := UpdateSyncLog env st (completedLog log stats now)
      ((some stats, none), st)

/-- The sync log row as created at the start of a sync. -/
def startedLog (connectionID : Nat) (syncType : String) (startedAt : Nat) : SyncLog :=
  { ID := 0, APIConnectionID := connectionID, SyncType := syncType,
    Status := "started", ReviewsFetched := 0, ReviewsAdded := 0,
    ReviewsUpdated := 0, ErrorMessage := "", StartedAt := startedAt,
    CompletedAt := none }

/-- The connection record with the advisory `syncing` marker set. -/
def syncingConn (conn : APIConnection) : APIConnection :=
  { conn with SyncStatus := SyncStatusSyncing }

/-- Go's `s, _ := encryptor.Decrypt(x)` with the error ignored: the empty
string on failure. -/
def decryptOr (env : Env) (s : String) : String :=
  match env.decrypt s with | .ok t => t | .error _ => ""

/-- Go's `s, _ := encryptor.Encrypt(x)` with the error ignored. -/
def encryptOr (env : Env) (s : String) : String :=
  match env.encrypt s with | .ok t => t | .error _ => ""

/-- The connection record after a successful token refresh: newly
encrypted access token, newly encrypted refresh token when the provider
returned one, and the new expiry. -/
def refreshedConn (env : Env) (conn : APIConnection) (tokenResp : TokenResponse) :
    APIConnection :=
  let conn := { conn with AccessToken := encryptOr env tokenResp.AccessToken }
  let conn :=
    if tokenResp.RefreshToken ≠ "" then
      { conn with RefreshToken := encryptOr env tokenResp.RefreshToken }
    else conn
  { conn with TokenExpiresAt := tokenResp.ExpiresAt }

/-- Embedding of `SyncService.SyncConnection`.  The Go function returns the
pair `(*SyncStats, error)`; both components can be non-nil at once (the
final connection update failure returns the stats together with the
error). -/
def SyncConnection (env : Env) (st : DBState) (connectionID : Nat)
    (syncType : String) : (Option SyncStats × Option String) × DBState :=
  let (connRes, st) := GetAPIConnection env st connectionID
  match connRes with
  | .error e => ((none, some e), st)
  | .ok conn =>
    match env.providers conn.Platform with
    | none => ((none, some ("provider not found for platform: " ++ conn.Platform)), st)
    | some provider =>
      let startedAt := st.clock
      let st := { st with clock := st.clock + 1 }
      let (logRes, st) := CreateSyncLog env st (startedLog connectionID syncType startedAt)
      match logRes with
      | .error e => ((none, some e), st)
      | .ok log =>
        let conn := syncingConn conn
        match UpdateAPIConnection env st conn with
        | (some e, st) => ((none, some e), st)
        | (none, st) =>
          match env.decrypt conn.AccessToken with
          | .error e => ((none, some e), handleSyncError env st conn log e)
          | .ok accessToken =>
            let st := { st with trace := st.trace ++ [.validateToken accessToken] }
            let vres := provider.ValidateToken accessToken
            if vres.2.isSome || !vres.1 then
              if conn.RefreshToken ≠ "" then
                let refreshToken := decryptOr env conn.RefreshToken
                let st := { st with trace := st.trace ++ [.refreshToken refreshToken] }
                match provider.RefreshToken refreshToken with
                | .error e => ((none, some e), handleSyncError env st conn log e)
                | .ok tokenResp =>
                  let conn := refreshedConn env conn tokenResp
                  let (_, st) := UpdateAPIConnection env st conn
                  fetchAndReconcile env st conn log provider tokenResp.AccessToken
              else
                ((none, some "invalid or expired access token"),
                  handleSyncError env st conn log "invalid or expired access token")
            else
              fetchAndReconcile env st conn log provider accessToken

@[simp] theorem syncingConn_AccessToken (conn : APIConnection) :
    (syncingConn conn).AccessToken = conn.AccessToken := rfl

@[simp] theorem syncingConn_RefreshToken (conn : APIConnection) :
    (syncingConn conn).RefreshToken = conn.RefreshToken := rfl

@[simp] theorem syncingConn_LastSyncAt (conn : APIConnection) :
    (syncingConn conn).LastSyncAt = conn.LastSyncAt := rfl

@[simp] theorem syncingConn_Platform (conn : APIConnection) :
    (syncingConn conn).Platform = conn.Platform := rfl

@[simp] theorem syncingConn_ID (conn : APIConnection) :
    (syncingConn conn).ID = conn.ID := rfl

@[simp] theorem syncingConn_MerchantID (conn : APIConnection) :
    (syncingConn conn).MerchantID = conn.MerchantID := rfl

@[simp] theorem syncingConn_SyncStatus (conn : APIConnection) :
    (syncingConn conn).SyncStatus = SyncStatusSyncing := rfl

@[simp] theorem refreshedConn_LastSyncAt (env : Env) (conn : APIConnection)
    (tokenResp : TokenResponse) :
    (refreshedConn env conn tokenResp).LastSyncAt = conn.LastSyncAt := by
  simp only [refreshedConn]
  split <;> rfl

@[simp] theorem refreshedConn_ID (env : Env) (conn : APIConnection)
    (tokenResp : TokenResponse) :
    (refreshedConn env conn tokenResp).ID = conn.ID := by
  simp only [refreshedConn]
  split <;> rfl

@[simp] theorem refreshedConn_SyncStatus (env : Env) (conn : APIConnection)
    (tokenResp : TokenResponse) :
    (refreshedConn env conn tokenResp).SyncStatus = conn.SyncStatus := by
  simp only [refreshedConn]
  split <;> rfl

@[simp] theorem refreshedConn_AccessToken (env : Env) (conn : APIConnection)
    (tokenResp : TokenResponse) :
    (refreshedConn env conn tokenResp).AccessToken = encryptOr env tokenResp.AccessToken := by
  simp only [refreshedConn]
  split <;> rfl

@[simp] theorem refreshedConn_TokenExpiresAt (env : Env) (conn : APIConnection)
    (tokenResp : TokenResponse) :
    (refreshedConn env conn tokenResp).TokenExpiresAt = tokenResp.ExpiresAt := by
  simp only [refreshedConn]

theorem refreshedConn_RefreshToken (env : Env) (conn : APIConnection)
    (tokenResp : TokenResponse) (h : tokenResp.RefreshToken ≠ "") :
    (refreshedConn env conn tokenResp).RefreshToken = encryptOr env tokenResp.RefreshToken := by
  simp only [refreshedConn, if_pos h]

theorem findReview_append (l₁ l₂ : List SyncedReview) (platform prid : String) :
    findReview (l₁ ++ l₂) platform prid =
      (findReview l₁ platform prid).or (findReview l₂ platform prid) :=
  List.find?_append

/-- One reconciliation step: the stats gain exactly one unit across
added/updated/errors, fetched is untouched, connections, logs, clock and
the log counter are untouched, and the trace grows only by review-loop
events. -/
theorem processReview_spec (env : Env) (conn : APIConnection) (stats : SyncStats)
    (st : DBState) (review : Review) :
    ∃ stats2 st2, processReview env conn (stats, st) review = (stats2, st2)
    ∧ stats2.TotalFetched = stats.TotalFetched
    ∧ stats2.TotalAdded + stats2.TotalUpdated + stats2.Errors.length
        = stats.TotalAdded + stats.TotalUpdated + stats.Errors.length + 1
    ∧ st2.connections = st.connections
    ∧ st2.logs = st.logs
    ∧ st2.clock = st.clock
    ∧ st2.nextLogID = st.nextLogID
    ∧ ∃ d, st2.trace = st.trace ++ d ∧ ∀ e ∈ d, e.isReviewOp = true := by
  cases hg : env.getReviewErr conn.Platform review.PlatformReviewID with
  | some e =>
    cases hc : env.createReviewErr (mkSyncedReview conn review) with
    | some e2 =>
      simp only [processReview, GetSyncedReviewByPlatformID, CreateSyncedReview, hg, hc]
      refine ⟨_, _, rfl, rfl, by simp; omega, rfl, rfl, rfl, rfl,
          [Event.getReview conn.Platform review.PlatformReviewID, Event.createReview (mkSyncedReview conn review)], by simp, ?_⟩
      intro x hx
      simp at hx
      rcases hx with rfl | rfl <;> rfl
    | none =>
      cases hf2 : findReview st.reviews (mkSyncedReview conn review).Platform
          (mkSyncedReview conn review).PlatformReviewID with
      | some ex =>
        simp only [processReview, GetSyncedReviewByPlatformID, CreateSyncedReview,
          hg, hc, hf2]
        refine ⟨_, _, rfl, rfl, by simp; omega, rfl, rfl, rfl, rfl,
          [Event.getReview conn.Platform review.PlatformReviewID, Event.createReview (mkSyncedReview conn review)], by simp, ?_⟩
        intro x hx
        simp at hx
        rcases hx with rfl | rfl <;> rfl
      | none =>
        simp only [processReview, GetSyncedReviewByPlatformID, CreateSyncedReview,
          hg, hc, hf2]
        refine ⟨_, _, rfl, rfl, by simp; omega, rfl, rfl, rfl, rfl,
          [Event.getReview conn.Platform review.PlatformReviewID, Event.createReview (mkSyncedReview conn review)], by simp, ?_⟩
        intro x hx
        simp at hx
        rcases hx with rfl | rfl <;> rfl
  | none =>
    cases hf : findReview st.reviews conn.Platform review.PlatformReviewID with
    | some existing =>
      cases hu : env.updateReviewErr { mkSyncedReview conn review with ID := existing.ID } with
      | some e2 =>
        simp only [processReview, GetSyncedReviewByPlatformID, UpdateSyncedReview,
          hg, hf, hu]
        refine ⟨_, _, rfl, rfl, by simp; omega, rfl, rfl, rfl, rfl,
          [Event.getReview conn.Platform review.PlatformReviewID, Event.updateReview { mkSyncedReview conn review with ID := existing.ID }], by simp, ?_⟩
        intro x hx
        simp at hx
        rcases hx with rfl | rfl <;> rfl
      | none =>
        simp only [processReview, GetSyncedReviewByPlatformID, UpdateSyncedReview,
          hg, hf, hu]
        refine ⟨_, _, rfl, rfl, by simp; omega, rfl, rfl, rfl, rfl,
          [Event.getReview conn.Platform review.PlatformReviewID, Event.updateReview { mkSyncedReview conn review with ID := existing.ID }], by simp, ?_⟩
        intro x hx
        simp at hx
        rcases hx with rfl | rfl <;> rfl
    | none =>
      cases hc : env.createReviewErr (mkSyncedReview conn review) with
      | some e2 =>
        simp only [processReview, GetSyncedReviewByPlatformID, CreateSyncedReview,
          hg, hf, hc]
        refine ⟨_, _, rfl, rfl, by simp; omega, rfl, rfl, rfl, rfl,
          [Event.getReview conn.Platform review.PlatformReviewID, Event.createReview (mkSyncedReview conn review)], by simp, ?_⟩
        intro x hx
        simp at hx
        rcases hx with rfl | rfl <;> rfl
      | none =>
        have hf2 : findReview st.reviews (mkSyncedReview conn review).Platform
            (mkSyncedReview conn review).PlatformReviewID = none := hf
        simp only [processReview, GetSyncedReviewByPlatformID, CreateSyncedReview,
          hg, hf, hc, hf2]
        refine ⟨_, _, rfl, rfl, by simp; omega, rfl, rfl, rfl, rfl,
          [Event.getReview conn.Platform review.PlatformReviewID, Event.createReview (mkSyncedReview conn review)], by simp, ?_⟩
        intro x hx
        simp at hx
        rcases hx with rfl | rfl <;> rfl

/-- Iterating `processReview` over a fetched list: one unit of
added/updated/errors per review, all non-review state untouched, trace
extended only with review-loop events. -/
theorem processReviews_spec (env : Env) (conn : APIConnection) :
    ∀ (rs : List Review) (stats : SyncStats) (st : DBState),
    ∃ stats2 st2, rs.foldl (processReview env conn) (stats, st) = (stats2, st2)
    ∧ stats2.TotalFetched = stats.TotalFetched
    ∧ stats2.TotalAdded + stats2.TotalUpdated + stats2.Errors.length
        = stats.TotalAdded + stats.TotalUpdated + stats.Errors.length + rs.length
    ∧ st2.connections = st.connections
    ∧ st2.logs = st.logs
    ∧ st2.clock = st.clock
    ∧ st2.nextLogID = st.nextLogID
    ∧ ∃ d, st2.trace = st.trace ++ d ∧ ∀ e ∈ d, e.isReviewOp = true := by
  intro rs
  induction rs with
  | nil =>
    intro stats st
    exact ⟨stats, st, rfl, rfl, by simp, rfl, rfl, rfl, rfl, [], by simp, by simp⟩
  | cons r rs ih =>
    intro stats st
    obtain ⟨s1, t1, h1, hf1, hc1, hcon1, hlog1, hclk1, hnl1, d1, ht1, hd1⟩ :=
      processReview_spec env conn stats st r
    obtain ⟨s2, t2, h2, hf2, hc2, hcon2, hlog2, hclk2, hnl2, d2, ht2, hd2⟩ := ih s1 t1
    refine ⟨s2, t2, ?_, by omega, by simp; omega, by rw [hcon2, hcon1],
      by rw [hlog2, hlog1], by rw [hclk2, hclk1], by rw [hnl2, hnl1],
      d1 ++ d2, ?_, ?_⟩
    · rw [List.foldl_cons, h1, h2]
    · rw [ht2, ht1, List.append_assoc]
    · intro x hx
      rcases List.mem_append.mp hx with h | h
      · exact hd1 x h
      · exact hd2 x h

/-- C1: during reconciliation, a fetched review whose
`(platform, platform_review_id)` key has a stored `SyncedReview` that the
lookup returns without error is updated in place: only the stored row with
the existing ID changes, by `applyReviewUpdate` — keeping the row's
identity and immutable columns (`id`, `merchant_id`, `api_connection_id`,
`platform`, `platform_review_id`, `reviewed_at`, `synced_at`) and
replacing the mutable columns (author name and photo, rating, text,
reply, visibility, metadata) with the fetched values; the row identities
of the table are unchanged (in particular no second row for the key is
created — no insert happens at all), and the review is tallied in
`TotalUpdated`, not `TotalAdded`. -/
theorem upsert_existing_updates_in_place
    (env : Env) (conn : APIConnection) (stats : SyncStats) (st : DBState)
    (review : Review) (existing : SyncedReview)
    (hg : env.getReviewErr conn.Platform review.PlatformReviewID = none)
    (hf : findReview st.reviews conn.Platform review.PlatformReviewID = some existing)
    (hu : env.updateReviewErr { mkSyncedReview conn review with ID := existing.ID } = none) :
    processReview env conn (stats, st) review =
      ({ stats with TotalUpdated := stats.TotalUpdated + 1 },
       { st with
         reviews := st.reviews.map (fun x =>
           if x.ID == existing.ID then
             applyReviewUpdate x { mkSyncedReview conn review with ID := existing.ID }
           else x),
         trace := st.trace ++ [.getReview conn.Platform review.PlatformReviewID,
           .updateReview { mkSyncedReview conn review with ID := existing.ID }] })
    ∧ (∀ x : SyncedReview,
        let u := applyReviewUpdate x { mkSyncedReview conn review with ID := existing.ID }
        u.ID = x.ID ∧ u.MerchantID = x.MerchantID
        ∧ u.APIConnectionID = x.APIConnectionID ∧ u.Platform = x.Platform
        ∧ u.PlatformReviewID = x.PlatformReviewID ∧ u.ReviewedAt = x.ReviewedAt
        ∧ u.SyncedAt = x.SyncedAt
        ∧ u.AuthorName = review.AuthorName ∧ u.AuthorPhotoURL = review.AuthorPhotoURL
        ∧ u.Rating = review.Rating ∧ u.ReviewText = review.ReviewText
        ∧ u.ReviewReply = review.ReviewReply ∧ u.IsVisible = true
        ∧ u.Metadata = review.Metadata)
    ∧ (processReview env conn (stats, st) review).2.reviews.map (fun r => r.ID)
        = st.reviews.map (fun r => r.ID)
    ∧ ∀ e ∈ (processReview env conn (stats, st) review).2.trace.drop st.trace.length,
        ∀ r, e ≠ Event.createReview r := by
  have hmain : processReview env conn (stats, st) review =
      ({ stats with TotalUpdated := stats.TotalUpdated + 1 },
       { st with
         reviews := st.reviews.map (fun x =>
           if x.ID == existing.ID then
             applyReviewUpdate x { mkSyncedReview conn review with ID := existing.ID }
           else x),
         trace := st.trace ++ [.getReview conn.Platform review.PlatformReviewID,
           .updateReview { mkSyncedReview conn review with ID := existing.ID }] }) := by
    simp [processReview, GetSyncedReviewByPlatformID, UpdateSyncedReview, hg, hf, hu]
  refine ⟨hmain, ?_, ?_, ?_⟩
  · intro x
    exact ⟨rfl, rfl, rfl, rfl, rfl, rfl, rfl, rfl, rfl, rfl, rfl, rfl, rfl, rfl⟩
  · rw [hmain]
    simp only [List.map_map]
    refine List.map_congr_left ?_
    intro x _
    simp only [Function.comp]
    split <;> rfl
  · rw [hmain]
    intro e he r
    rw [List.drop_left] at he
    simp only [List.mem_cons, List.mem_singleton] at he
    rcases he with rfl | rfl | h
    · simp
    · simp
    · simp at h

/-! Concrete fixtures used by the witnesses. -/

def wConn : APIConnection :=
  { ID := 1, MerchantID := 7, Platform := "google_business", PlatformAccountID := "acc",
    PlatformAccountName := "Acc", AccessToken := "enc-access",
    RefreshToken := "enc-refresh", TokenExpiresAt := 99, IsActive := true,
    LastSyncAt := some 50, SyncStatus := "completed", ErrorMessage := "",
    CreatedAt := 0, UpdatedAt := 0 }

def wRev (k txt : String) : Review :=
  { PlatformReviewID := k, AuthorName := "a", AuthorPhotoURL := "", Rating := some 4,
    ReviewText := txt, ReviewReply := "", ReviewedAt := 10, Metadata := [] }

def wRow : SyncedReview :=
  { ID := 30, MerchantID := 7, APIConnectionID := some 1, Platform := "google_business",
    PlatformReviewID := "e1", AuthorName := "old", AuthorPhotoURL := "", Rating := some 2,
    ReviewText := "old text", ReviewReply := "", ReviewedAt := 5, SyncedAt := 0,
    IsVisible := true, Metadata := [] }

def wProv : Provider :=
  { ValidateToken := fun _ => (true, none)
    RefreshToken := fun _ => .error "refresh unavailable"
    FetchReviews := fun _ _ => .ok [wRev "n1" "t1", wRev "n2" "t2", wRev "e1" "new text"] }

def wEnv : Env :=
  { providers := fun p => if p == "google_business" then some wProv else none
    decrypt := fun s => .ok s
    encrypt := fun s => .ok s
    getConnErr := fun _ => none
    createSyncLogErr := fun _ => none
    updateConnErr := fun _ => none
    getReviewErr := fun _ _ => none
    createReviewErr := fun _ => none
    updateReviewErr := fun _ => none
    updateSyncLogErr := fun _ => none }

def wSt : DBState :=
  { connections := [wConn], reviews := [wRow], logs := [], nextReviewID := 31,
    nextLogID := 5, clock := 100, trace := [] }

def wStats0 : SyncStats :=
  { TotalFetched := 3, TotalAdded := 0, TotalUpdated := 0, Errors := [] }

/-- Witness for C1 at the concrete fixtures: the stored row "e1" is
re-fetched with changed text. -/
theorem upsert_existing_updates_in_place_witness :
    processReview wEnv wConn (wStats0, wSt) (wRev "e1" "new text") =
      ({ wStats0 with TotalUpdated := wStats0.TotalUpdated + 1 },
       { wSt with
         reviews := wSt.reviews.map (fun x =>
           if x.ID == wRow.ID then
             applyReviewUpdate x
               { mkSyncedReview wConn (wRev "e1" "new text") with ID := wRow.ID }
           else x),
         trace := wSt.trace ++
           [.getReview wConn.Platform (wRev "e1" "new text").PlatformReviewID,
            .updateReview { mkSyncedReview wConn (wRev "e1" "new text") with ID := wRow.ID }] })
    ∧ (∀ x : SyncedReview,
        let u := applyReviewUpdate x
          { mkSyncedReview wConn (wRev "e1" "new text") with ID := wRow.ID }
        u.ID = x.ID ∧ u.MerchantID = x.MerchantID
        ∧ u.APIConnectionID = x.APIConnectionID ∧ u.Platform = x.Platform
        ∧ u.PlatformReviewID = x.PlatformReviewID ∧ u.ReviewedAt = x.ReviewedAt
        ∧ u.SyncedAt = x.SyncedAt
        ∧ u.AuthorName = (wRev "e1" "new text").AuthorName
        ∧ u.AuthorPhotoURL = (wRev "e1" "new text").AuthorPhotoURL
        ∧ u.Rating = (wRev "e1" "new text").Rating
        ∧ u.ReviewText = (wRev "e1" "new text").ReviewText
        ∧ u.ReviewReply = (wRev "e1" "new text").ReviewReply ∧ u.IsVisible = true
        ∧ u.Metadata = (wRev "e1" "new text").Metadata)
    ∧ (processReview wEnv wConn (wStats0, wSt) (wRev "e1" "new text")).2.reviews.map
        (fun r => r.ID) = wSt.reviews.map (fun r => r.ID)
    ∧ ∀ e ∈ (processReview wEnv wConn (wStats0, wSt)
          (wRev "e1" "new text")).2.trace.drop wSt.trace.length,
        ∀ r, e ≠ Event.createReview r :=
  upsert_existing_updates_in_place wEnv wConn wStats0 wSt (wRev "e1" "new text") wRow
    rfl (by decide) rfl

theorem isReviewOp_ne_fetch (e : Event) (h : e.isReviewOp = true) :
    ∀ tok since r, e ≠ Event.fetchReviews tok since r := by
  cases e <;> simp_all [Event.isReviewOp]

/-- Stats returned together with a successful fetch partition the fetched
list: `TotalFetched` equals the length recorded on the fetch event and
equals added + updated + per-item errors. -/
theorem fetchAndReconcile_stats (env : Env) (st : DBState) (conn : APIConnection)
    (log : SyncLog) (provider : Provider) (accessToken : String)
    (stats : SyncStats) (oe : Option String) (st2 : DBState)
    (h : fetchAndReconcile env st conn log provider accessToken = ((some stats, oe), st2)) :
    stats.TotalFetched = stats.TotalAdded + stats.TotalUpdated + stats.Errors.length
    ∧ ∃ d, st2.trace = st.trace ++ d
        ∧ ∀ tok since n, Event.fetchReviews tok since (some n) ∈ d →
            stats.TotalFetched = n := by
  cases hfetch : provider.FetchReviews accessToken (sinceOf conn) with
  | error e => simp [fetchAndReconcile, hfetch] at h
  | ok reviews =>
    obtain ⟨s2, t2, hfold, hTF, hsum, hcon, hlogs, hclk, hnl, dfold, htr, hdrev⟩ :=
      processReviews_spec env conn reviews
        { TotalFetched := reviews.length, TotalAdded := 0, TotalUpdated := 0, Errors := [] }
        { st with trace := st.trace ++
            [.fetchReviews accessToken (sinceOf conn) (some reviews.length)] }
    have htr2 : t2.trace = st.trace ++
        ([Event.fetchReviews accessToken (sinceOf conn) (some reviews.length)] ++ dfold) := by
      rw [htr]
      simp
    have hTF2 : s2.TotalFetched = reviews.length := by simpa using hTF
    have hsum2 : s2.TotalAdded + s2.TotalUpdated + s2.Errors.length = reviews.length := by
      simpa using hsum
    cases huc : env.updateConnErr (completedConn conn t2.clock) with
    | some e2 =>
      -- final connection update fails: stats returned with the error
      simp only [fetchAndReconcile, hfetch, hfold, UpdateAPIConnection, huc] at h
      simp only [Prod.mk.injEq, Option.some.injEq] at h
      obtain ⟨⟨hs, ho⟩, hst⟩ := h
      subst hs
      refine ⟨by omega, ?_⟩
      refine ⟨[Event.fetchReviews accessToken (sinceOf conn) (some reviews.length)]
        ++ dfold ++ [Event.updateConn (completedConn conn t2.clock)], ?_, ?_⟩
      · rw [← hst]
        simp [htr2]
      · intro tok since n hmem
        rcases List.mem_append.mp hmem with hmem | hmem
        · rcases List.mem_append.mp hmem with hmem | hmem
          · simp at hmem
            omega
          · exact absurd rfl (isReviewOp_ne_fetch _ (hdrev _ hmem) tok since (some n))
        · simp at hmem
    | none =>
      -- final connection update succeeds; the log is closed (its own write
      -- error is ignored)
      cases hul : env.updateSyncLogErr (completedLog log s2 t2.clock) <;>
      · simp only [fetchAndReconcile, hfetch, hfold, UpdateAPIConnection, huc,
          UpdateSyncLog, hul] at h
        simp only [Prod.mk.injEq, Option.some.injEq] at h
        obtain ⟨⟨hs, ho⟩, hst⟩ := h
        subst hs
        refine ⟨by omega, ?_⟩
        refine ⟨[Event.fetchReviews accessToken (sinceOf conn) (some reviews.length)]
          ++ dfold ++ [Event.updateConn (completedConn conn t2.clock),
            Event.updateSyncLog (completedLog log s2 t2.clock)], ?_, ?_⟩
        · rw [← hst]
          simp [htr2]
        · intro tok since n hmem
          rcases List.mem_append.mp hmem with hmem | hmem
          · rcases List.mem_append.mp hmem with hmem | hmem
            · simp at hmem
              omega
            · exact absurd rfl (isReviewOp_ne_fetch _ (hdrev _ hmem) tok since (some n))
          · simp at hmem

/-- Every run of `SyncConnection` that returns a stats value factors
through `fetchAndReconcile`, and the trace laid down before that stage
contains no fetch events. -/
theorem SyncConnection_some_factors (env : Env) (st : DBState) (id : Nat) (ty : String)
    (stats : SyncStats) (oe : Option String) (st2 : DBState)
    (h : SyncConnection env st id ty = ((some stats, oe), st2)) :
    ∃ st1 conn log provider accessToken,
      fetchAndReconcile env st1 conn log provider accessToken = ((some stats, oe), st2)
      ∧ ∃ d, st1.trace = st.trace ++ d
        ∧ ∀ e ∈ d, ∀ tok since r, e ≠ Event.fetchReviews tok since r := by
  cases hgc : env.getConnErr id with
  | some e => simp [SyncConnection, GetAPIConnection, hgc] at h
  | none =>
    cases hfc : findConn st.connections id with
    | none => simp [SyncConnection, GetAPIConnection, hgc, hfc] at h
    | some conn =>
      cases hpv : env.providers conn.Platform with
      | none => simp [SyncConnection, GetAPIConnection, hgc, hfc, hpv] at h
      | some provider =>
        cases hcl : env.createSyncLogErr (startedLog id ty st.clock) with
        | some e =>
          simp [SyncConnection, GetAPIConnection, CreateSyncLog, hgc, hfc, hpv, hcl] at h
        | none =>
          cases huc : env.updateConnErr (syncingConn conn) with
          | some e =>
            simp [SyncConnection, GetAPIConnection, CreateSyncLog, UpdateAPIConnection,
              hgc, hfc, hpv, hcl, huc] at h
          | none =>
            cases hdec : env.decrypt conn.AccessToken with
            | error e =>
              simp [SyncConnection, GetAPIConnection, CreateSyncLog, UpdateAPIConnection,
                hgc, hfc, hpv, hcl, huc, hdec] at h
            | ok tok =>
              by_cases hval : ((provider.ValidateToken tok).2.isSome
                  || !(provider.ValidateToken tok).1) = true
              · by_cases hrt : conn.RefreshToken = ""
                · simp [SyncConnection, GetAPIConnection, CreateSyncLog,
                    UpdateAPIConnection, hgc, hfc, hpv, hcl, huc, hdec, hval, hrt] at h
                · cases hrf : provider.RefreshToken (decryptOr env conn.RefreshToken) with
                  | error e =>
                    simp [SyncConnection, GetAPIConnection, CreateSyncLog,
                      UpdateAPIConnection, hgc, hfc, hpv, hcl, huc, hdec, hval, hrt,
                      hrf] at h
                  | ok tokenResp =>
                    cases huc2 : env.updateConnErr
                        (refreshedConn env (syncingConn conn) tokenResp) <;>
                    · simp only [SyncConnection, GetAPIConnection, CreateSyncLog,
                        UpdateAPIConnection, hgc, hfc, hpv, hcl, huc, hdec, hval, hrt,
                        hrf, huc2, syncingConn_AccessToken, syncingConn_RefreshToken,
                        if_pos hrt] at h
                      refine ⟨_, _, _, _, _, h,
                        [Event.getConn id, Event.createSyncLog (startedLog id ty st.clock),
                         Event.updateConn (syncingConn conn), Event.validateToken tok,
                         Event.refreshToken (decryptOr env conn.RefreshToken),
                         Event.updateConn (refreshedConn env (syncingConn conn) tokenResp)],
                        ?_, ?_⟩
                      · simp
                      · intro e he tok2 since r
                        simp at he
                        rcases he with rfl | rfl | rfl | rfl | rfl | rfl <;> simp
              · simp only [SyncConnection, GetAPIConnection, CreateSyncLog,
                  UpdateAPIConnection, hgc, hfc, hpv, hcl, huc, hdec, hval,
                  syncingConn_AccessToken, Bool.false_eq_true, if_false] at h
                refine ⟨_, _, _, _, _, h,
                  [Event.getConn id, Event.createSyncLog (startedLog id ty st.clock),
                   Event.updateConn (syncingConn conn), Event.validateToken tok],
                  ?_, ?_⟩
                · simp
                · intro e he tok2 since r
                  simp at he
                  rcases he with rfl | rfl | rfl | rfl <;> simp

/-- C10: whenever `SyncConnection` returns a `SyncStats`, the stats
partition the fetched list: `TotalFetched` equals added + updated +
per-item errors, and `TotalFetched` is the length of the list that
`FetchReviews` returned, as recorded on the run's fetch event. -/
theorem syncStats_partition (env : Env) (st : DBState) (id : Nat) (ty : String)
    (stats : SyncStats) (oe : Option String) (st2 : DBState)
    (h : SyncConnection env st id ty = ((some stats, oe), st2)) :
    stats.TotalFetched = stats.TotalAdded + stats.TotalUpdated + stats.Errors.length
    ∧ ∀ tok since n,
        Event.fetchReviews tok since (some n) ∈ st2.trace.drop st.trace.length →
        stats.TotalFetched = n := by
  obtain ⟨st1, conn, log, provider, accessToken, hfar, d1, htr1, hd1⟩ :=
    SyncConnection_some_factors env st id ty stats oe st2 h
  obtain ⟨hsum, d2, htr2, hd2⟩ :=
    fetchAndReconcile_stats env st1 conn log provider accessToken stats oe st2 hfar
  refine ⟨hsum, ?_⟩
  intro tok since n hmem
  have hsplit : st2.trace = st.trace ++ (d1 ++ d2) := by
    rw [htr2, htr1, List.append_assoc]
  rw [hsplit, List.drop_left] at hmem
  rcases List.mem_append.mp hmem with hmem | hmem
  · exact absurd rfl (hd1 _ hmem tok since (some n))
  · exact hd2 tok since n hmem

/-- Witness for C10 at the concrete fixtures. -/
theorem syncStats_partition_witness :
    (3 = 2 + 1 + ([] : List String).length)
    ∧ ∀ tok since n, Event.fetchReviews tok since (some n) ∈
        ((SyncConnection wEnv wSt 1 "manual").2.trace.drop wSt.trace.length) →
        3 = n :=
  syncStats_partition wEnv wSt 1 "manual"
    { TotalFetched := 3, TotalAdded := 2, TotalUpdated := 1, Errors := [] } none
    (SyncConnection wEnv wSt 1 "manual").2 rfl

/-- C7: calling `SyncConnection` for a connection whose platform has no
registered provider returns the `ErrProviderNotFound` error immediately
and mutates nothing: no `SyncLog` is created, connections, reviews and
logs are untouched, and the trace gains no persistence-write event (only
the connection read). -/
theorem unknown_platform_no_mutation (env : Env) (st : DBState) (id : Nat) (ty : String)
    (conn : APIConnection)
    (hgc : env.getConnErr id = none)
    (hfc : findConn st.connections id = some conn)
    (hpv : env.providers conn.Platform = none) :
    SyncConnection env st id ty =
      ((none, some ("provider not found for platform: " ++ conn.Platform)),
       { st with trace := st.trace ++ [.getConn id] })
    ∧ (SyncConnection env st id ty).2.connections = st.connections
    ∧ (SyncConnection env st id ty).2.reviews = st.reviews
    ∧ (SyncConnection env st id ty).2.logs = st.logs
    ∧ (SyncConnection env st id ty).2.nextLogID = st.nextLogID
    ∧ ∀ e ∈ (SyncConnection env st id ty).2.trace.drop st.trace.length,
        e.isWrite = false := by
  have hmain : SyncConnection env st id ty =
      ((none, some ("provider not found for platform: " ++ conn.Platform)),
       { st with trace := st.trace ++ [.getConn id] }) := by
    simp [SyncConnection, GetAPIConnection, hgc, hfc, hpv]
  refine ⟨hmain, ?_, ?_, ?_, ?_, ?_⟩ <;> rw [hmain]
  intro e he
  simp only [List.drop_left] at he
  simp at he
  subst he
  rfl

/-- Witness for C7: the fixture environment with an empty provider
registry. -/
theorem unknown_platform_no_mutation_witness :
    SyncConnection { wEnv with providers := fun _ => none } wSt 1 "manual" =
      ((none, some ("provider not found for platform: " ++ wConn.Platform)),
       { wSt with trace := wSt.trace ++ [.getConn 1] })
    ∧ (SyncConnection { wEnv with providers := fun _ => none } wSt 1 "manual").2.connections
        = wSt.connections
    ∧ (SyncConnection { wEnv with providers := fun _ => none } wSt 1 "manual").2.reviews
        = wSt.reviews
    ∧ (SyncConnection { wEnv with providers := fun _ => none } wSt 1 "manual").2.logs
        = wSt.logs
    ∧ (SyncConnection { wEnv with providers := fun _ => none } wSt 1 "manual").2.nextLogID
        = wSt.nextLogID
    ∧ ∀ e ∈ (SyncConnection { wEnv with providers := fun _ => none }
          wSt 1 "manual").2.trace.drop wSt.trace.length,
        e.isWrite = false :=
  unknown_platform_no_mutation { wEnv with providers := fun _ => none } wSt 1 "manual"
    wConn rfl (by decide) rfl

theorem findConn_id (l : List APIConnection) (id : Nat) (c : APIConnection)
    (h : findConn l id = some c) : c.ID = id := by
  have := List.find?_some h
  simpa using this

theorem findConn_replace (l : List APIConnection) (id : Nat) (a : APIConnection)
    (ha : a.ID = id) : ∀ c, findConn l id = some c →
    findConn (l.map (fun x => if x.ID == a.ID then a else x)) id = some a := by
  induction l with
  | nil => intro c hc; simp [findConn] at hc
  | cons x xs ih =>
    intro c hc
    by_cases hx : (x.ID == id) = true
    · have hxa : (x.ID == a.ID) = true := by rw [ha]; exact hx
      simp only [findConn, List.map_cons, List.find?_cons, hxa, if_pos]
      have : (a.ID == id) = true := by simp [ha]
      simp [this]
    · have hxa : (x.ID == a.ID) = false := by rw [ha]; simpa using hx
      simp only [findConn, List.find?_cons] at hc
      rw [Bool.not_eq_true] at hx
      simp only [hx] at hc
      simp only [findConn, List.map_cons, List.find?_cons, hxa, if_neg,
        Bool.false_eq_true, not_false_iff]
      simp only [hx]
      exact ih c hc

/-- When its own two writes succeed, `handleSyncError` leaves the
connection row failed with the error text and the log row closed as failed
with the same text and a completion time. -/
theorem handleSyncError_spec (env : Env) (st : DBState) (conn : APIConnection)
    (log : SyncLog) (err : String)
    (huc : ∀ c, env.updateConnErr c = none)
    (hul : ∀ l, env.updateSyncLogErr l = none)
    (c0 : APIConnection) (hfind : findConn st.connections conn.ID = some c0)
    (hmem : log ∈ st.logs) :
    findConn (handleSyncError env st conn log err).connections conn.ID
      = some (failedConn conn err)
    ∧ failedLog log err st.clock ∈ (handleSyncError env st conn log err).logs := by
  simp only [handleSyncError, UpdateAPIConnection, UpdateSyncLog, huc, hul]
  constructor
  · exact findConn_replace st.connections conn.ID (failedConn conn err) rfl c0 hfind
  · exact List.mem_map.mpr ⟨log, hmem, by simp [failedLog]⟩

/-- The only way `fetchAndReconcile` returns no stats is a fetch error,
routed through `handleSyncError`. -/
theorem fetchAndReconcile_none (env : Env) (st : DBState) (conn : APIConnection)
    (log : SyncLog) (provider : Provider) (accessToken : String) (e : String)
    (st2 : DBState)
    (h : fetchAndReconcile env st conn log provider accessToken = ((none, some e), st2)) :
    provider.FetchReviews accessToken (sinceOf conn) = .error e
    ∧ st2 = handleSyncError env
        { st with trace := st.trace ++ [.fetchReviews accessToken (sinceOf conn) none] }
        conn log e := by
  cases hfetch : provider.FetchReviews accessToken (sinceOf conn) with
  | error e2 =>
    simp only [fetchAndReconcile, hfetch, Prod.mk.injEq, Option.some.injEq] at h
    obtain ⟨⟨-, he⟩, hst⟩ := h
    subst he
    exact ⟨rfl, hst.symm⟩
  | ok reviews =>
    obtain ⟨s2, t2, hfold, -, -, -, -, -, -, -, -, -⟩ :=
      processReviews_spec env conn reviews
        { TotalFetched := reviews.length, TotalAdded := 0, TotalUpdated := 0, Errors := [] }
        { st with trace := st.trace ++
            [.fetchReviews accessToken (sinceOf conn) (some reviews.length)] }
    cases huc2 : env.updateConnErr (completedConn conn t2.clock)
    · cases hul2 : env.updateSyncLogErr (completedLog log s2 t2.clock) <;>
        simp [fetchAndReconcile, hfetch, hfold, UpdateAPIConnection, UpdateSyncLog,
          huc2, hul2] at h
    · simp [fetchAndReconcile, hfetch, hfold, UpdateAPIConnection, huc2] at h

/-- Packaging of `handleSyncError_spec` keyed to the connection ID and the
log's own fields. -/
theorem handleSyncError_agreement (env : Env) (stP : DBState) (connF : APIConnection)
    (logF : SyncLog) (e : String) (id : Nat)
    (huc : ∀ c, env.updateConnErr c = none)
    (hul : ∀ l, env.updateSyncLogErr l = none)
    (hid2 : connF.ID = id)
    (c0 : APIConnection) (hfind : findConn stP.connections id = some c0)
    (hmem : logF ∈ stP.logs)
    (st2 : DBState) (hst : handleSyncError env stP connF logF e = st2) :
    (∃ c2, findConn st2.connections id = some c2
      ∧ c2.SyncStatus = SyncStatusFailed ∧ c2.ErrorMessage = e)
    ∧ (∃ l2, l2 ∈ st2.logs ∧ l2.ID = logF.ID
      ∧ l2.APIConnectionID = logF.APIConnectionID
      ∧ l2.Status = "failed" ∧ l2.ErrorMessage = e ∧ ∃ t, l2.CompletedAt = some t) := by
  subst hst
  obtain ⟨hA, hB⟩ := handleSyncError_spec env stP connF logF e huc hul c0
    (by rw [hid2]; exact hfind) hmem
  refine ⟨⟨failedConn connF e, ?_, rfl, rfl⟩,
          ⟨failedLog logF e stP.clock, hB, rfl, rfl, rfl, rfl, stP.clock, rfl⟩⟩
  rw [← hid2]
  exact hA

/-- C3: with the status/log writes themselves reliable, every
unrecoverable error `SyncConnection` hits after creating the sync log —
the decrypt failure, the token-validate/refresh failures, and the fetch
failure — is returned only after the connection is marked failed with the
error text and the same sync's log is closed as failed with the same text
and a completion time: the two records agree. -/
theorem sync_error_state_agreement (env : Env) (st : DBState) (id : Nat) (ty : String)
    (conn : APIConnection) (e : String) (st2 : DBState)
    (hgc : env.getConnErr id = none)
    (hfc : findConn st.connections id = some conn)
    (hpv : ∃ provider, env.providers conn.Platform = some provider)
    (hcl : ∀ l, env.createSyncLogErr l = none)
    (huc : ∀ c, env.updateConnErr c = none)
    (hul : ∀ l, env.updateSyncLogErr l = none)
    (hrun : SyncConnection env st id ty = ((none, some e), st2)) :
    (∃ c2, findConn st2.connections id = some c2
      ∧ c2.SyncStatus = SyncStatusFailed ∧ c2.ErrorMessage = e)
    ∧ (∃ l2, l2 ∈ st2.logs ∧ l2.ID = st.nextLogID ∧ l2.APIConnectionID = id
      ∧ l2.Status = "failed" ∧ l2.ErrorMessage = e ∧ ∃ t, l2.CompletedAt = some t) := by
  obtain ⟨provider, hpv⟩ := hpv
  have hid : conn.ID = id := findConn_id _ _ _ hfc
  cases hdec : env.decrypt conn.AccessToken with
  | error e2 =>
    simp only [SyncConnection, GetAPIConnection, CreateSyncLog, UpdateAPIConnection,
      hgc, hfc, hpv, hcl, huc, hdec, syncingConn_AccessToken,
      Prod.mk.injEq, Option.some.injEq, true_and] at hrun
    obtain ⟨he, hst⟩ := hrun
    subst he
    exact handleSyncError_agreement env _ _ _ _ id huc hul (by simp [hid]) _
      (findConn_replace st.connections id (syncingConn conn) (by simp [hid]) conn hfc)
      (by simp) _ hst
  | ok tok =>
    by_cases hval : ((provider.ValidateToken tok).2.isSome
        || !(provider.ValidateToken tok).1) = true
    · by_cases hrt : conn.RefreshToken = ""
      · simp only [SyncConnection, GetAPIConnection, CreateSyncLog, UpdateAPIConnection,
          hgc, hfc, hpv, hcl, huc, hdec, hval, syncingConn_AccessToken,
          syncingConn_RefreshToken, hrt, Prod.mk.injEq, Option.some.injEq, true_and,
          if_true, ne_eq, not_true_eq_false, if_false] at hrun
        obtain ⟨he, hst⟩ := hrun
        subst he
        exact handleSyncError_agreement env _ _ _ _ id huc hul (by simp [hid]) _
          (findConn_replace st.connections id (syncingConn conn) (by simp [hid]) conn hfc)
          (by simp) _ hst
      · cases hrf : provider.RefreshToken (decryptOr env conn.RefreshToken) with
        | error e2 =>
          simp only [SyncConnection, GetAPIConnection, CreateSyncLog, UpdateAPIConnection,
            hgc, hfc, hpv, hcl, huc, hdec, hval, syncingConn_AccessToken,
            syncingConn_RefreshToken, if_pos hrt, if_true, hrf, Prod.mk.injEq,
            Option.some.injEq, true_and] at hrun
          obtain ⟨he, hst⟩ := hrun
          subst he
          exact handleSyncError_agreement env _ _ _ _ id huc hul (by simp [hid]) _
            (findConn_replace st.connections id (syncingConn conn) (by simp [hid]) conn hfc)
            (by simp) _ hst
        | ok tokenResp =>
          simp only [SyncConnection, GetAPIConnection, CreateSyncLog, UpdateAPIConnection,
            hgc, hfc, hpv, hcl, huc, hdec, hval, syncingConn_AccessToken,
            syncingConn_RefreshToken, if_pos hrt, if_true, hrf] at hrun
          obtain ⟨-, hst⟩ := fetchAndReconcile_none env _ _ _ provider _ e st2 hrun
          exact handleSyncError_agreement env _ _ _ _ id huc hul (by simp [hid]) _
            (findConn_replace _ id (refreshedConn env (syncingConn conn) tokenResp)
              (by simp [hid]) (syncingConn conn)
              (findConn_replace st.connections id (syncingConn conn)
                (by simp [hid]) conn hfc))
            (by simp) _ hst.symm
    · simp only [SyncConnection, GetAPIConnection, CreateSyncLog, UpdateAPIConnection,
        hgc, hfc, hpv, hcl, huc, hdec, hval, syncingConn_AccessToken,
        Bool.false_eq_true, if_false] at hrun
      obtain ⟨-, hst⟩ := fetchAndReconcile_none env _ _ _ provider _ e st2 hrun
      exact handleSyncError_agreement env _ _ _ _ id huc hul (by simp [hid]) _
        (findConn_replace st.connections id (syncingConn conn) (by simp [hid]) conn hfc)
        (by simp) _ hst.symm

/-- Fixture environment whose token decryption always fails. -/
def wEnvBadDecrypt : Env := { wEnv with decrypt := fun _ => .error "bad-key" }

/-- Witness for C3: a decrypt failure at the concrete fixtures leaves
connection and log agreeing on the failure. -/
theorem sync_error_state_agreement_witness :
    (∃ c2, findConn (SyncConnection wEnvBadDecrypt wSt 1 "manual").2.connections 1 = some c2
      ∧ c2.SyncStatus = SyncStatusFailed ∧ c2.ErrorMessage = "bad-key")
    ∧ (∃ l2, l2 ∈ (SyncConnection wEnvBadDecrypt wSt 1 "manual").2.logs
      ∧ l2.ID = wSt.nextLogID ∧ l2.APIConnectionID = 1
      ∧ l2.Status = "failed" ∧ l2.ErrorMessage = "bad-key"
      ∧ ∃ t, l2.CompletedAt = some t) :=
  sync_error_state_agreement wEnvBadDecrypt wSt 1 "manual" wConn "bad-key"
    (SyncConnection wEnvBadDecrypt wSt 1 "manual").2 rfl (by decide) ⟨wProv, rfl⟩
    (fun _ => rfl) (fun _ => rfl) (fun _ => rfl) rfl

theorem handleSyncError_trace (env : Env) (st : DBState) (conn : APIConnection)
    (log : SyncLog) (e : String) :
    ∃ d, (handleSyncError env st conn log e).trace = st.trace ++ d := by
  simp only [handleSyncError, UpdateAPIConnection, UpdateSyncLog]
  split <;> split <;>
    exact ⟨[Event.updateConn (failedConn conn e),
      Event.updateSyncLog (failedLog log e st.clock)], by simp⟩

/-- The first event `fetchAndReconcile` lays down is its fetch call; the
rest of the trace follows it. -/
theorem fetchAndReconcile_trace (env : Env) (stX : DBState) (conn : APIConnection)
    (log : SyncLog) (provider : Provider) (accessToken : String) :
    ∃ res dtail, (fetchAndReconcile env stX conn log provider accessToken).2.trace
      = stX.trace ++ Event.fetchReviews accessToken (sinceOf conn) res :: dtail := by
  cases hfetch : provider.FetchReviews accessToken (sinceOf conn) with
  | error e =>
    obtain ⟨d2, hd2⟩ := handleSyncError_trace env
      { stX with trace := stX.trace ++ [.fetchReviews accessToken (sinceOf conn) none] }
      conn log e
    refine ⟨none, d2, ?_⟩
    simp only [fetchAndReconcile, hfetch]
    rw [hd2]
    simp
  | ok reviews =>
    obtain ⟨s2, t2, hfold, -, -, -, -, -, -, dfold, htr, -⟩ :=
      processReviews_spec env conn reviews
        { TotalFetched := reviews.length, TotalAdded := 0, TotalUpdated := 0, Errors := [] }
        { stX with trace := stX.trace ++
            [.fetchReviews accessToken (sinceOf conn) (some reviews.length)] }
    have htr2 : t2.trace = stX.trace ++
        Event.fetchReviews accessToken (sinceOf conn) (some reviews.length) :: dfold := by
      rw [htr]
      simp
    simp only [fetchAndReconcile, hfetch, hfold, UpdateAPIConnection, UpdateSyncLog]
    cases huc2 : env.updateConnErr (completedConn conn t2.clock)
    · cases hul2 : env.updateSyncLogErr (completedLog log s2 t2.clock) <;>
      · refine ⟨some reviews.length,
          dfold ++ [Event.updateConn (completedConn conn t2.clock),
            Event.updateSyncLog (completedLog log s2 t2.clock)], ?_⟩
        simp [huc2, hul2, htr2]
    · refine ⟨some reviews.length,
        dfold ++ [Event.updateConn (completedConn conn t2.clock)], ?_⟩
      simp [huc2, htr2]

/-- C5: when token validation reports the access token invalid or errors:
with no stored refresh token the sync fails with the invalid-token error;
with a refresh token and a successful provider refresh, the connection
carrying the newly encrypted access token (and refresh token when one was
returned) and the new expiry is handed to `UpdateAPIConnection` — trace
position 5 — strictly before `FetchReviews` is called — trace position 6.
Under `huc` the update is also applied to the stored table at that
point. -/
theorem token_refresh_persisted_before_fetch (env : Env) (st : DBState) (id : Nat)
    (ty : String) (conn : APIConnection) (tok : String) (provider : Provider)
    (hgc : env.getConnErr id = none)
    (hfc : findConn st.connections id = some conn)
    (hpv : env.providers conn.Platform = some provider)
    (hcl : ∀ l, env.createSyncLogErr l = none)
    (huc : ∀ c, env.updateConnErr c = none)
    (hdec : env.decrypt conn.AccessToken = .ok tok)
    (hval : ((provider.ValidateToken tok).2.isSome
        || !(provider.ValidateToken tok).1) = true) :
    (conn.RefreshToken = "" →
      (SyncConnection env st id ty).1 = (none, some "invalid or expired access token"))
    ∧ ∀ tokenResp, conn.RefreshToken ≠ "" →
        provider.RefreshToken (decryptOr env conn.RefreshToken) = .ok tokenResp →
        ∃ d, (SyncConnection env st id ty).2.trace = st.trace ++ d
          ∧ d.get? 5 = some (.updateConn (refreshedConn env (syncingConn conn) tokenResp))
          ∧ (∃ res, d.get? 6 = some (.fetchReviews tokenResp.AccessToken
              (sinceOf conn) res))
          ∧ (refreshedConn env (syncingConn conn) tokenResp).AccessToken
              = encryptOr env tokenResp.AccessToken
          ∧ (tokenResp.RefreshToken ≠ "" →
              (refreshedConn env (syncingConn conn) tokenResp).RefreshToken
                = encryptOr env tokenResp.RefreshToken)
          ∧ (refreshedConn env (syncingConn conn) tokenResp).TokenExpiresAt
              = tokenResp.ExpiresAt := by
  constructor
  · intro hrt
    simp [SyncConnection, GetAPIConnection, CreateSyncLog, UpdateAPIConnection,
      hgc, hfc, hpv, hcl, huc, hdec, hval, hrt]
  · intro tokenResp hrt hrf
    have hsince : sinceOf (refreshedConn env (syncingConn conn) tokenResp)
        = sinceOf conn := by
      simp [sinceOf]
    obtain ⟨res, dtail, hfar⟩ := fetchAndReconcile_trace env
      { connections := st.connections.map
          (fun c => if c.ID == (syncingConn conn).ID then syncingConn conn else c)
          |>.map (fun c =>
            if c.ID == (refreshedConn env (syncingConn conn) tokenResp).ID
            then refreshedConn env (syncingConn conn) tokenResp else c),
        reviews := st.reviews,
        logs := st.logs ++ [{ startedLog id ty st.clock with ID := st.nextLogID }],
        nextReviewID := st.nextReviewID, nextLogID := st.nextLogID + 1,
        clock := st.clock + 1,
        trace := st.trace ++ [Event.getConn id]
          ++ [Event.createSyncLog (startedLog id ty st.clock)]
          ++ [Event.updateConn (syncingConn conn)] ++ [Event.validateToken tok]
          ++ [Event.refreshToken (decryptOr env conn.RefreshToken)]
          ++ [Event.updateConn (refreshedConn env (syncingConn conn) tokenResp)] }
      (refreshedConn env (syncingConn conn) tokenResp)
      { startedLog id ty st.clock with ID := st.nextLogID }
      provider tokenResp.AccessToken
    rw [hsince] at hfar
    refine ⟨[Event.getConn id, Event.createSyncLog (startedLog id ty st.clock),
        Event.updateConn (syncingConn conn), Event.validateToken tok,
        Event.refreshToken (decryptOr env conn.RefreshToken),
        Event.updateConn (refreshedConn env (syncingConn conn) tokenResp)]
      ++ Event.fetchReviews tokenResp.AccessToken (sinceOf conn) res :: dtail,
      ?_, rfl, ⟨res, rfl⟩, refreshedConn_AccessToken env _ tokenResp,
      fun h => refreshedConn_RefreshToken env _ tokenResp h,
      refreshedConn_TokenExpiresAt env _ tokenResp⟩
    have hrun : (SyncConnection env st id ty).2.trace =
        (fetchAndReconcile env
          { connections := st.connections.map
              (fun c => if c.ID == (syncingConn conn).ID then syncingConn conn else c)
              |>.map (fun c =>
                if c.ID == (refreshedConn env (syncingConn conn) tokenResp).ID
                then refreshedConn env (syncingConn conn) tokenResp else c),
            reviews := st.reviews,
            logs := st.logs ++ [{ startedLog id ty st.clock with ID := st.nextLogID }],
            nextReviewID := st.nextReviewID, nextLogID := st.nextLogID + 1,
            clock := st.clock + 1,
            trace := st.trace ++ [Event.getConn id]
              ++ [Event.createSyncLog (startedLog id ty st.clock)]
              ++ [Event.updateConn (syncingConn conn)] ++ [Event.validateToken tok]
              ++ [Event.refreshToken (decryptOr env conn.RefreshToken)]
              ++ [Event.updateConn (refreshedConn env (syncingConn conn) tokenResp)] }
          (refreshedConn env (syncingConn conn) tokenResp)
          { startedLog id ty st.clock with ID := st.nextLogID }
          provider tokenResp.AccessToken).2.trace := by
      simp only [SyncConnection, GetAPIConnection, CreateSyncLog, UpdateAPIConnection,
        hgc, hfc, hpv, hcl, huc, hdec, hval, syncingConn_AccessToken,
        syncingConn_RefreshToken, if_pos hrt, if_true, hrf]
    rw [hrun, hfar]
    simp

def wTokResp : TokenResponse :=
  { AccessToken := "newtok", RefreshToken := "newref", ExpiresIn := 3600,
    TokenType := "Bearer", ExpiresAt := 999 }

def wProvRefresh : Provider :=
  { ValidateToken := fun _ => (false, none)
    RefreshToken := fun _ => .ok wTokResp
    FetchReviews := fun _ _ => .ok [] }

def wEnvRefresh : Env :=
  { wEnv with providers :=
      fun p => if p == "google_business" then some wProvRefresh else none }

def wConnNoRt : APIConnection := { wConn with RefreshToken := "" }

def wStNoRt : DBState := { wSt with connections := [wConnNoRt] }

/-- Witness for C5: the invalid-token failure with no refresh token, and
the refresh-then-fetch ordering at the concrete fixtures. -/
theorem token_refresh_persisted_before_fetch_witness :
    ((SyncConnection wEnvRefresh wStNoRt 1 "manual").1
      = (none, some "invalid or expired access token"))
    ∧ ∃ d, (SyncConnection wEnvRefresh wSt 1 "manual").2.trace = wSt.trace ++ d
        ∧ d.get? 5 = some (.updateConn (refreshedConn wEnvRefresh (syncingConn wConn) wTokResp))
        ∧ (∃ res, d.get? 6 = some (.fetchReviews wTokResp.AccessToken (sinceOf wConn) res))
        ∧ (refreshedConn wEnvRefresh (syncingConn wConn) wTokResp).AccessToken
            = encryptOr wEnvRefresh wTokResp.AccessToken
        ∧ (wTokResp.RefreshToken ≠ "" →
            (refreshedConn wEnvRefresh (syncingConn wConn) wTokResp).RefreshToken
              = encryptOr wEnvRefresh wTokResp.RefreshToken)
        ∧ (refreshedConn wEnvRefresh (syncingConn wConn) wTokResp).TokenExpiresAt
            = wTokResp.ExpiresAt :=
  ⟨(token_refresh_persisted_before_fetch wEnvRefresh wStNoRt 1 "manual" wConnNoRt
      "enc-access" wProvRefresh rfl (by decide) rfl (fun _ => rfl) (fun _ => rfl)
      rfl rfl).1 rfl,
   (token_refresh_persisted_before_fetch wEnvRefresh wSt 1 "manual" wConn
      "enc-access" wProvRefresh rfl (by decide) rfl (fun _ => rfl) (fun _ => rfl)
      rfl rfl).2 wTokResp (by decide) rfl⟩

theorem processReview_create (env : Env) (conn : APIConnection) (stats : SyncStats)
    (st : DBState) (review : Review)
    (hg : env.getReviewErr conn.Platform review.PlatformReviewID = none)
    (hf : findReview st.reviews conn.Platform review.PlatformReviewID = none)
    (hcr : env.createReviewErr (mkSyncedReview conn review) = none) :
    processReview env conn (stats, st) review =
      ({ stats with TotalAdded := stats.TotalAdded + 1 },
       { st with
         reviews := st.reviews ++ [{ mkSyncedReview conn review with ID := st.nextReviewID }],
         nextReviewID := st.nextReviewID + 1,
         trace := st.trace ++ [.getReview conn.Platform review.PlatformReviewID,
           .createReview (mkSyncedReview conn review)] }) := by
  have hf2 : findReview st.reviews (mkSyncedReview conn review).Platform
      (mkSyncedReview conn review).PlatformReviewID = none := hf
  simp [processReview, GetSyncedReviewByPlatformID, CreateSyncedReview, hg, hf, hf2, hcr]

theorem processReview_update (env : Env) (conn : APIConnection) (stats : SyncStats)
    (st : DBState) (review : Review) (existing : SyncedReview)
    (hg : env.getReviewErr conn.Platform review.PlatformReviewID = none)
    (hf : findReview st.reviews conn.Platform review.PlatformReviewID = some existing)
    (hur : env.updateReviewErr { mkSyncedReview conn review with ID := existing.ID } = none) :
    processReview env conn (stats, st) review =
      ({ stats with TotalUpdated := stats.TotalUpdated + 1 },
       { st with
         reviews := st.reviews.map (fun x =>
           if x.ID == existing.ID then
             applyReviewUpdate x { mkSyncedReview conn review with ID := existing.ID }
           else x),
         trace := st.trace ++ [.getReview conn.Platform review.PlatformReviewID,
           .updateReview { mkSyncedReview conn review with ID := existing.ID }] }) := by
  simp [processReview, GetSyncedReviewByPlatformID, UpdateSyncedReview, hg, hf, hur]

/-- Reconciling a fetched list of two new reviews followed by one matching
a stored row: two inserts at fresh IDs, one in-place update. -/
theorem processReviews_two_new_one_existing (env : Env) (conn : APIConnection)
    (stats : SyncStats) (st : DBState) (r1 r2 r3 : Review) (ex : SyncedReview)
    (hgr : ∀ p k, env.getReviewErr p k = none)
    (hcr : ∀ r, env.createReviewErr r = none)
    (hur : ∀ r, env.updateReviewErr r = none)
    (h1 : findReview st.reviews conn.Platform r1.PlatformReviewID = none)
    (h2 : findReview st.reviews conn.Platform r2.PlatformReviewID = none)
    (h3 : findReview st.reviews conn.Platform r3.PlatformReviewID = some ex)
    (h12 : r1.PlatformReviewID ≠ r2.PlatformReviewID) :
    [r1, r2, r3].foldl (processReview env conn) (stats, st) =
      ({ stats with TotalAdded := stats.TotalAdded + 1 + 1,
                    TotalUpdated := stats.TotalUpdated + 1 },
       { st with
         reviews := ((st.reviews
             ++ [{ mkSyncedReview conn r1 with ID := st.nextReviewID }])
             ++ [{ mkSyncedReview conn r2 with ID := st.nextReviewID + 1 }]).map
           (fun (x : SyncedReview) =>
             if x.ID == ex.ID then
               applyReviewUpdate x { mkSyncedReview conn r3 with ID := ex.ID }
             else x),
         nextReviewID := st.nextReviewID + 1 + 1,
         trace := st.trace ++ [.getReview conn.Platform r1.PlatformReviewID,
           .createReview (mkSyncedReview conn r1),
           .getReview conn.Platform r2.PlatformReviewID,
           .createReview (mkSyncedReview conn r2),
           .getReview conn.Platform r3.PlatformReviewID,
           .updateReview { mkSyncedReview conn r3 with ID := ex.ID }] }) := by
  have hb12 : (r1.PlatformReviewID == r2.PlatformReviewID) = false :=
    beq_eq_false_iff_ne.mpr h12
  have hf2 : findReview
      (st.reviews ++ [{ mkSyncedReview conn r1 with ID := st.nextReviewID }])
      conn.Platform r2.PlatformReviewID = none := by
    rw [findReview_append, h2]
    simp [findReview, mkSyncedReview, hb12]
  have hf3 : findReview
      ((st.reviews ++ [{ mkSyncedReview conn r1 with ID := st.nextReviewID }])
        ++ [{ mkSyncedReview conn r2 with ID := st.nextReviewID + 1 }])
      conn.Platform r3.PlatformReviewID = some ex := by
    rw [findReview_append, findReview_append, h3]
    simp
  simp only [List.foldl_cons, List.foldl_nil]
  rw [processReview_create env conn stats st r1 (hgr _ _) h1 (hcr _)]
  rw [processReview_create env conn _ _ r2 (hgr _ _) hf2 (hcr _)]
  rw [processReview_update env conn _ _ r3 ex (hgr _ _) hf3 (hur _)]
  simp

/-- C2: the success scenario.  With a stored last-sync time, the provider
returning three reviews since that time of which two are new and one
matches a stored row with changed content, and all persistence calls
succeeding, `SyncConnection` returns `SyncStats{Fetched 3, Added 2,
Updated 1}` with no error; the connection row ends as `completedConn`:
`last_sync_at` set to the run's completion time `now`, status completed,
error message cleared; and the sync log created by this run is closed as
`completedLog`: status completed, the same three counts, `completed_at`
the same `now`. -/
theorem sync_success_scenario (env : Env) (st : DBState) (id : Nat) (ty : String)
    (conn : APIConnection) (provider : Provider) (tok : String) (t0 : Nat)
    (r1 r2 r3 : Review) (ex : SyncedReview)
    (hgc : env.getConnErr id = none)
    (hcl : ∀ l, env.createSyncLogErr l = none)
    (huc : ∀ c, env.updateConnErr c = none)
    (hgr : ∀ p k, env.getReviewErr p k = none)
    (hcr : ∀ r, env.createReviewErr r = none)
    (hur : ∀ r, env.updateReviewErr r = none)
    (hul : ∀ l, env.updateSyncLogErr l = none)
    (hfc : findConn st.connections id = some conn)
    (hpv : env.providers conn.Platform = some provider)
    (hdec : env.decrypt conn.AccessToken = .ok tok)
    (hval : provider.ValidateToken tok = (true, none))
    (hls : conn.LastSyncAt = some t0)
    (hfetch : provider.FetchReviews tok t0 = .ok [r1, r2, r3])
    (h1 : findReview st.reviews conn.Platform r1.PlatformReviewID = none)
    (h2 : findReview st.reviews conn.Platform r2.PlatformReviewID = none)
    (h3 : findReview st.reviews conn.Platform r3.PlatformReviewID = some ex)
    (h12 : r1.PlatformReviewID ≠ r2.PlatformReviewID) :
    ∃ st2 now,
      SyncConnection env st id ty =
        ((some { TotalFetched := 3, TotalAdded := 2, TotalUpdated := 1, Errors := [] },
          none), st2)
      ∧ findConn st2.connections id = some (completedConn (syncingConn conn) now)
      ∧ (completedConn (syncingConn conn) now).LastSyncAt = some now
      ∧ (completedConn (syncingConn conn) now).SyncStatus = SyncStatusCompleted
      ∧ (completedConn (syncingConn conn) now).ErrorMessage = ""
      ∧ ∃ l2, l2 ∈ st2.logs ∧ l2.ID = st.nextLogID ∧ l2.APIConnectionID = id
          ∧ l2.Status = "completed" ∧ l2.ReviewsFetched = 3 ∧ l2.ReviewsAdded = 2
          ∧ l2.ReviewsUpdated = 1 ∧ l2.CompletedAt = some now := by
  have hid : conn.ID = id := findConn_id _ _ _ hfc
  have hvalc : ¬ (((provider.ValidateToken tok).2.isSome
      || !(provider.ValidateToken tok).1) = true) := by rw [hval]; simp
  have hfetch2 : provider.FetchReviews tok (sinceOf (syncingConn conn))
      = .ok [r1, r2, r3] := by
    simpa [sinceOf, hls] using hfetch
  have hrun : SyncConnection env st id ty =
      fetchAndReconcile env
        { connections := st.connections.map
            (fun c => if c.ID == (syncingConn conn).ID then syncingConn conn else c),
          reviews := st.reviews,
          logs := st.logs ++ [{ startedLog id ty st.clock with ID := st.nextLogID }],
          nextReviewID := st.nextReviewID, nextLogID := st.nextLogID + 1,
          clock := st.clock + 1,
          trace := st.trace ++ [Event.getConn id]
            ++ [Event.createSyncLog (startedLog id ty st.clock)]
            ++ [Event.updateConn (syncingConn conn)] ++ [Event.validateToken tok] }
        (syncingConn conn) { startedLog id ty st.clock with ID := st.nextLogID }
        provider tok := by
    simp only [SyncConnection, GetAPIConnection, CreateSyncLog, UpdateAPIConnection,
      hgc, hfc, hpv, hcl, huc, hdec, hvalc, syncingConn_AccessToken,
      Bool.false_eq_true, if_false]
  have hfold := processReviews_two_new_one_existing env (syncingConn conn)
    { TotalFetched := [r1, r2, r3].length, TotalAdded := 0, TotalUpdated := 0,
      Errors := [] }
    { connections := st.connections.map
        (fun c => if c.ID == (syncingConn conn).ID then syncingConn conn else c),
      reviews := st.reviews,
      logs := st.logs ++ [{ startedLog id ty st.clock with ID := st.nextLogID }],
      nextReviewID := st.nextReviewID, nextLogID := st.nextLogID + 1,
      clock := st.clock + 1,
      trace := st.trace ++ [Event.getConn id]
        ++ [Event.createSyncLog (startedLog id ty st.clock)]
        ++ [Event.updateConn (syncingConn conn)] ++ [Event.validateToken tok]
        ++ [Event.fetchReviews tok (sinceOf (syncingConn conn)) (some [r1, r2, r3].length)] }
    r1 r2 r3 ex hgr hcr hur h1 h2 h3 h12
  have hfr : SyncConnection env st id ty =
      ((some { TotalFetched := 3, TotalAdded := 2, TotalUpdated := 1, Errors := [] },
        none),
       { connections := (st.connections.map
            (fun c => if c.ID == (syncingConn conn).ID then syncingConn conn else c)).map
            (fun c => if c.ID == (completedConn (syncingConn conn) (st.clock + 1)).ID
              then completedConn (syncingConn conn) (st.clock + 1) else c),
         reviews := ((st.reviews
             ++ [{ mkSyncedReview (syncingConn conn) r1 with ID := st.nextReviewID }])
             ++ [{ mkSyncedReview (syncingConn conn) r2 with ID := st.nextReviewID + 1 }]).map
           (fun (x : SyncedReview) =>
             if x.ID == ex.ID then
               applyReviewUpdate x { mkSyncedReview (syncingConn conn) r3 with ID := ex.ID }
             else x),
         logs := (st.logs ++ [{ startedLog id ty st.clock with ID := st.nextLogID }]).map
           (fun (x : SyncLog) =>
             if x.ID == (completedLog { startedLog id ty st.clock with ID := st.nextLogID }
                { TotalFetched := 3, TotalAdded := 2, TotalUpdated := 1, Errors := [] }
                (st.clock + 1)).ID
             then completedLog { startedLog id ty st.clock with ID := st.nextLogID }
                { TotalFetched := 3, TotalAdded := 2, TotalUpdated := 1, Errors := [] }
                (st.clock + 1)
             else x),
         nextReviewID := st.nextReviewID + 1 + 1, nextLogID := st.nextLogID + 1,
         clock := st.clock + 2,
         trace := st.trace ++ [Event.getConn id]
           ++ [Event.createSyncLog (startedLog id ty st.clock)]
           ++ [Event.updateConn (syncingConn conn)] ++ [Event.validateToken tok]
           ++ [Event.fetchReviews tok (sinceOf (syncingConn conn)) (some 3)]
           ++ [Event.getReview conn.Platform r1.PlatformReviewID,
               Event.createReview (mkSyncedReview (syncingConn conn) r1),
               Event.getReview conn.Platform r2.PlatformReviewID,
               Event.createReview (mkSyncedReview (syncingConn conn) r2),
               Event.getReview conn.Platform r3.PlatformReviewID,
               Event.updateReview { mkSyncedReview (syncingConn conn) r3 with ID := ex.ID }]
           ++ [Event.updateConn (completedConn (syncingConn conn) (st.clock + 1))]
           ++ [Event.updateSyncLog (completedLog
                { startedLog id ty st.clock with ID := st.nextLogID }
                { TotalFetched := 3, TotalAdded := 2, TotalUpdated := 1, Errors := [] }
                (st.clock + 1))] }) := by
    rw [hrun]
    simp only [fetchAndReconcile, hfetch2, hfold, UpdateAPIConnection, UpdateSyncLog,
      huc, hul]
    simp
  refine ⟨_, st.clock + 1, hfr, ?_, rfl, rfl, rfl,
    completedLog { startedLog id ty st.clock with ID := st.nextLogID }
      { TotalFetched := 3, TotalAdded := 2, TotalUpdated := 1, Errors := [] }
      (st.clock + 1),
    ?_, rfl, rfl, rfl, rfl, rfl, rfl, rfl⟩
  · exact findConn_replace _ id (completedConn (syncingConn conn) (st.clock + 1))
      (by simp [completedConn, hid]) (syncingConn conn)
      (findConn_replace st.connections id (syncingConn conn) (by simp [hid]) conn hfc)
  · exact List.mem_map.mpr ⟨{ startedLog id ty st.clock with ID := st.nextLogID },
      by simp, by simp [completedLog]⟩

/-- Witness for C2 at the concrete fixtures. -/
theorem sync_success_scenario_witness :
    ∃ st2 now,
      SyncConnection wEnv wSt 1 "manual" =
        ((some { TotalFetched := 3, TotalAdded := 2, TotalUpdated := 1, Errors := [] },
          none), st2)
      ∧ findConn st2.connections 1 = some (completedConn (syncingConn wConn) now)
      ∧ (completedConn (syncingConn wConn) now).LastSyncAt = some now
      ∧ (completedConn (syncingConn wConn) now).SyncStatus = SyncStatusCompleted
      ∧ (completedConn (syncingConn wConn) now).ErrorMessage = ""
      ∧ ∃ l2, l2 ∈ st2.logs ∧ l2.ID = wSt.nextLogID ∧ l2.APIConnectionID = 1
          ∧ l2.Status = "completed" ∧ l2.ReviewsFetched = 3 ∧ l2.ReviewsAdded = 2
          ∧ l2.ReviewsUpdated = 1 ∧ l2.CompletedAt = some now :=
  sync_success_scenario wEnv wSt 1 "manual" wConn wProv "enc-access" 50
    (wRev "n1" "t1") (wRev "n2" "t2") (wRev "e1" "new text") wRow
    rfl (fun _ => rfl) (fun _ => rfl) (fun _ _ => rfl) (fun _ => rfl) (fun _ => rfl)
    (fun _ => rfl) (by decide) rfl rfl rfl rfl rfl (by decide) (by decide) (by decide)
    (by decide)

/-! ## Scheduler (`scheduler.go`, `runSync`)

Each tick loads the active connections once, slices the snapshot into
consecutive batches of `batchSize`, launches one task per connection of a
batch and collects exactly `len(batch)` results from the channel before
moving to the next batch.  Within a batch the goroutines finish in no
defined order: the completion order in which their effects serialize is
the oracle `sched`, constrained in the theorems to be a permutation of
the batch.  Across batches the collect-loop makes execution strictly
sequential.  A task whose snapshot connection is already `syncing` sends a
skipped result, and the collect-loop counts neither success nor failure
for it. -/

/-- Go's batch slicing loop `for i := 0; i < len; i += batchSize`:
`connections[i:end]` slices in order.  (A batch size of zero would loop
forever in Go; the model returns no batches there, and the theorems
assume a positive batch size as the claim does.) -/
def chunks {α : Type} (B : Nat) : List α → List (List α)
  | [] => []
  | a :: l =>
    if h : B = 0 then []
    else ((a :: l).take B) :: chunks B ((a :: l).drop B)
termination_by x => x.length
decreasing_by
  have hB : 0 < B := Nat.pos_of_ne_zero h
  simp only [List.length_drop, List.length_cons]
  omega

theorem chunks_join {α : Type} (B : Nat) (hB : 0 < B) :
    ∀ l : List α, (chunks B l).flatten = l
  | [] => by simp [chunks]
  | a :: l => by
    rw [chunks, dif_neg (by omega : ¬ B = 0), List.flatten_cons,
      chunks_join B hB ((a :: l).drop B)]
    exact List.take_append_drop B (a :: l)
termination_by l => l.length
decreasing_by
  simp only [List.length_drop, List.length_cons]
  omega

theorem chunks_length_le {α : Type} (B : Nat) :
    ∀ l : List α, ∀ b ∈ chunks B l, b.length ≤ B
  | [] => by simp [chunks]
  | a :: l => by
    by_cases h : B = 0
    · rw [chunks, dif_pos h]
      intro b hb
      simp at hb
    · rw [chunks, dif_neg h]
      intro b hb
      rcases List.mem_cons.mp hb with rfl | hb
      · simp
      · exact chunks_length_le B ((a :: l).drop B) b hb
termination_by l => l.length
decreasing_by
  have hB : 0 < B := Nat.pos_of_ne_zero h
  simp only [List.length_drop, List.length_cons]
  omega

theorem chunks_count {α : Type} (B : Nat) (hB : 0 < B) :
    ∀ l : List α, (chunks B l).length = (l.length + B - 1) / B
  | [] => by
    simp only [chunks, List.length_nil]
    exact (Nat.div_eq_of_lt (by omega)).symm
  | a :: l => by
    rw [chunks, dif_neg (by omega : ¬ B = 0), List.length_cons,
      chunks_count B hB ((a :: l).drop B), List.length_drop]
    by_cases hle : (a :: l).length ≤ B
    · have hd : (a :: l).length - B = 0 := by omega
      rw [hd, Nat.div_eq_of_lt (by omega : 0 + B - 1 < B)]
      have hlen : 0 < (a :: l).length := by simp
      rw [(by omega : (a :: l).length + B - 1 = ((a :: l).length - 1) + B),
        Nat.add_div_right _ hB,
        Nat.div_eq_of_lt (by omega : (a :: l).length - 1 < B)]
    · have heq : (a :: l).length + B - 1 = ((a :: l).length - B + B - 1) + B := by
        omega
      rw [heq, Nat.add_div_right _ hB]
termination_by l => l.length
decreasing_by
  simp only [List.length_drop, List.length_cons]
  omega

/-- One scheduler task for one connection of the loaded snapshot, fused
with the collect-loop's tallying for its result: a connection already
`syncing` in the snapshot is skipped — no `SyncConnection` call, no state
change, no tally; otherwise `SyncConnection` runs and the result counts as
a failure exactly when it carried an error. -/
def runConnTask (env : Env) (acc : Nat × Nat × DBState) (conn : APIConnection) :
    Nat × Nat × DBState :=
  if conn.SyncStatus == SyncStatusSyncing then acc
  else
    let (succ, fail, st) := acc
    match SyncConnection env st conn.ID SyncTypeScheduled with
    | ((_, some _), st) => (succ, fail + 1, st)
    | ((_, none), st) => (succ + 1, fail, st)

/-- One batch: its concurrent tasks' effects serialize in the completion
order `order`. -/
def runBatch (env : Env) (order : List APIConnection) (acc : Nat × Nat × DBState) :
    Nat × Nat × DBState :=
  order.foldl (runConnTask env) acc

/-- The batch loop: batch k+1 starts only on the accumulator batch k
returned (the channel-collect loop drains a batch before the next
starts). -/
def runBatches (env : Env) (sched : Nat → List APIConnection → List APIConnection) :
    List (List APIConnection) → Nat → (Nat × Nat × DBState) → Nat × Nat × DBState
  | [], _, acc => acc
  | b :: bs, k, acc => runBatches env sched bs (k + 1) (runBatch env (sched k b) acc)

/-- Embedding of the scheduler's `runSync`: load the active connections,
slice the snapshot into batches, run the batches sequentially. -/
def runSync (env : Env) (sched : Nat → List APIConnection → List APIConnection)
    (batchSize : Nat) (st : DBState) : Nat × Nat × DBState :=
  let connections := st.connections.filter (fun c => c.IsActive)
  if connections.isEmpty then (0, 0, st)
  else runBatches env sched (chunks batchSize connections) 0 (0, 0, st)

/-- C8: for a run over `N` active connections with positive batch size
`B`, `runSync` partitions the loaded snapshot, in order, into exactly
`⌈N / B⌉` batches of at most `B` connections each, and executes the
batches strictly sequentially: batch `k+1` is processed only on the
accumulator returned after all of batch `k`'s tasks folded in — whatever
completion order `sched` the tasks of a batch take. -/
theorem scheduler_batching (env : Env)
    (sched : Nat → List APIConnection → List APIConnection)
    (B : Nat) (st : DBState) (hB : 0 < B)
    (hN : 0 < (st.connections.filter (fun c => c.IsActive)).length) :
    ((chunks B (st.connections.filter (fun c => c.IsActive))).length
      = ((st.connections.filter (fun c => c.IsActive)).length + B - 1) / B)
    ∧ (∀ b ∈ chunks B (st.connections.filter (fun c => c.IsActive)), b.length ≤ B)
    ∧ (chunks B (st.connections.filter (fun c => c.IsActive))).flatten
        = st.connections.filter (fun c => c.IsActive)
    ∧ runSync env sched B st
        = runBatches env sched (chunks B (st.connections.filter (fun c => c.IsActive)))
            0 (0, 0, st)
    ∧ ∀ bs b k acc, runBatches env sched (b :: bs) k acc
        = runBatches env sched bs (k + 1) (runBatch env (sched k b) acc) := by
  refine ⟨chunks_count B hB _, chunks_length_le B _, chunks_join B hB _, ?_,
    fun _ _ _ _ => rfl⟩
  rw [runSync]
  rw [if_neg]
  intro hempty
  rw [List.isEmpty_iff] at hempty
  rw [hempty] at hN
  simp at hN

/-- Witness fixture: a second active connection. -/
def wConn2 : APIConnection :=
  { wConn with ID := 2, PlatformAccountID := "acc2", SyncStatus := "pending" }

/-- Witness fixture: a third connection, already syncing at snapshot
time. -/
def wConn3 : APIConnection :=
  { wConn with ID := 3, PlatformAccountID := "acc3", SyncStatus := "syncing" }

def wStSched : DBState :=
  { wSt with connections := [wConn, wConn2, wConn3] }

/-- Witness for C8: three active connections, batch size two. -/
theorem scheduler_batching_witness :
    ((chunks 2 (wStSched.connections.filter (fun c => c.IsActive))).length
      = ((wStSched.connections.filter (fun c => c.IsActive)).length + 2 - 1) / 2)
    ∧ (∀ b ∈ chunks 2 (wStSched.connections.filter (fun c => c.IsActive)), b.length ≤ 2)
    ∧ (chunks 2 (wStSched.connections.filter (fun c => c.IsActive))).flatten
        = wStSched.connections.filter (fun c => c.IsActive)
    ∧ runSync wEnv (fun _ b => b) 2 wStSched
        = runBatches wEnv (fun _ b => b)
            (chunks 2 (wStSched.connections.filter (fun c => c.IsActive))) 0 (0, 0, wStSched)
    ∧ ∀ bs b k acc, runBatches wEnv (fun _ b => b) (b :: bs) k acc
        = runBatches wEnv (fun _ b => b) bs (k + 1) (runBatch wEnv b acc) :=
  scheduler_batching wEnv (fun _ b => b) 2 wStSched (by omega) (by decide)

theorem runTasks_tally (env : Env) : ∀ (l : List APIConnection) (s f : Nat) (st : DBState),
    ∃ s2 f2 st2, l.foldl (runConnTask env) (s, f, st) = (s2, f2, st2)
      ∧ s2 + f2 = s + f + l.countP (fun c => !(c.SyncStatus == SyncStatusSyncing))
  | [], s, f, st => ⟨s, f, st, rfl, by simp⟩
  | c :: l, s, f, st => by
    by_cases hc : (c.SyncStatus == SyncStatusSyncing) = true
    · obtain ⟨s2, f2, st2, hfold, hsum⟩ := runTasks_tally env l s f st
      refine ⟨s2, f2, st2, ?_, ?_⟩
      · rw [List.foldl_cons,
          show runConnTask env (s, f, st) c = (s, f, st) from by simp [runConnTask, hc]]
        exact hfold
      · rw [List.countP_cons]
        simp only [hc, Bool.not_true, Bool.false_eq_true, if_false]
        omega
    · rcases hsc : SyncConnection env st c.ID SyncTypeScheduled with ⟨⟨ostats, oerr⟩, stX⟩
      cases oerr with
      | some e =>
        obtain ⟨s2, f2, st2, hfold, hsum⟩ := runTasks_tally env l s (f + 1) stX
        refine ⟨s2, f2, st2, ?_, ?_⟩
        · rw [List.foldl_cons, show runConnTask env (s, f, st) c = (s, f + 1, stX) from by
            simp [runConnTask, hc, hsc]]
          exact hfold
        · rw [List.countP_cons]
          simp only [hc, Bool.not_false, if_true]
          omega
      | none =>
        obtain ⟨s2, f2, st2, hfold, hsum⟩ := runTasks_tally env l (s + 1) f stX
        refine ⟨s2, f2, st2, ?_, ?_⟩
        · rw [List.foldl_cons, show runConnTask env (s, f, st) c = (s + 1, f, stX) from by
            simp [runConnTask, hc, hsc]]
          exact hfold
        · rw [List.countP_cons]
          simp only [hc, Bool.not_false, if_true]
          omega

theorem runBatches_tally (env : Env)
    (sched : Nat → List APIConnection → List APIConnection)
    (hperm : ∀ k b, List.Perm (sched k b) b) :
    ∀ (bs : List (List APIConnection)) (k s f : Nat) (st : DBState),
    ∃ s2 f2 st2, runBatches env sched bs k (s, f, st) = (s2, f2, st2)
      ∧ s2 + f2 = s + f
          + bs.flatten.countP (fun c => !(c.SyncStatus == SyncStatusSyncing))
  | [], k, s, f, st => ⟨s, f, st, rfl, by simp⟩
  | b :: bs, k, s, f, st => by
    obtain ⟨s1, f1, st1, hbatch, hsum1⟩ := runTasks_tally env (sched k b) s f st
    obtain ⟨s2, f2, st2, hrest, hsum2⟩ := runBatches_tally env sched hperm bs (k + 1) s1 f1 st1
    rw [(hperm k b).countP_eq] at hsum1
    refine ⟨s2, f2, st2, ?_, ?_⟩
    · rw [runBatches]
      rw [show runBatch env (sched k b) (s, f, st) = (s1, f1, st1) from hbatch]
      exact hrest
    · rw [List.flatten_cons, List.countP_append]
      omega

/-- C9: in every tick, a connection marked `syncing` in the loaded
snapshot is skipped: its task returns without calling `SyncConnection` or
touching any state, and the tick's success/failure tally counts exactly
the non-`syncing` connections of the snapshot — busy ones appear in
neither count. -/
theorem skip_on_busy (env : Env)
    (sched : Nat → List APIConnection → List APIConnection)
    (B : Nat) (st : DBState) (hB : 0 < B)
    (hperm : ∀ k b, List.Perm (sched k b) b) :
    ((runSync env sched B st).1 + (runSync env sched B st).2.1
      = (st.connections.filter (fun c => c.IsActive)).countP
          (fun c => !(c.SyncStatus == SyncStatusSyncing)))
    ∧ ∀ acc conn, conn.SyncStatus = SyncStatusSyncing →
        runConnTask env acc conn = acc := by
  constructor
  · rw [runSync]
    by_cases hempty : (st.connections.filter (fun c => c.IsActive)).isEmpty
    · rw [if_pos hempty]
      rw [List.isEmpty_iff] at hempty
      rw [hempty]
      simp
    · rw [if_neg hempty]
      obtain ⟨s2, f2, st2, hrun, hsum⟩ := runBatches_tally env sched hperm
        (chunks B (st.connections.filter (fun c => c.IsActive))) 0 0 0 st
      rw [chunks_join B hB] at hsum
      rw [hrun]
      simpa using hsum
  · intro acc conn hconn
    simp [runConnTask, hconn]

/-- Witness for C9 at the fixtures: one of three active connections is
already syncing. -/
theorem skip_on_busy_witness :
    ((runSync wEnv (fun _ b => b) 2 wStSched).1
        + (runSync wEnv (fun _ b => b) 2 wStSched).2.1
      = (wStSched.connections.filter (fun c => c.IsActive)).countP
          (fun c => !(c.SyncStatus == SyncStatusSyncing)))
    ∧ ∀ acc conn, conn.SyncStatus = SyncStatusSyncing →
        runConnTask wEnv acc conn = acc :=
  skip_on_busy wEnv (fun _ b => b) 2 wStSched (by omega) (fun _ _ => List.Perm.refl _)

end Sync

end AutoGBP
